import Mathlib

/-!
Verification development for the agentbot inbox synchronization engine.

Shallow embedding of `app/services/gmail_sync.py`, `app/services/gmail_client.py`
and `app/services/state.py`.  Conventions:

* Gmail `internalDate` values are kept as the raw optional strings the API
  returns; successful parses are modelled as `Int` millisecond timestamps.
  Python's `datetime.fromtimestamp(ms / 1000)` is a strictly monotone
  injection on the millisecond values the provider produces, so comparisons
  between the derived `datetime`s are modelled as comparisons on the `Int`
  millisecond values and `timedelta(days = n)` as adding `n * 86400000` ms.
* Python string primitives (`str.strip`, `str.lower`, `str.split(",")`,
  `int(...)`, `str.replace("-", "/")`) are modelled by the executable
  `py_strip`, `py_lower`, `py_split_comma`, `py_int?`, `py_dash_to_slash`
  below (ASCII case folding, decimal integer literals), written by structural
  recursion on the character list so that concrete runs reduce in the kernel.
* External library calls (`email.utils.parseaddr`, the AI triage service,
  the full-body fetch + decode, `hashlib` content hashing, `datetime.date`
  day arithmetic) are modelled as opaque pure function fields of `Ctx`;
  `Option` results model calls that may raise (swallowed by the caller).
* Python truthiness on optional strings (`if not from_header`, `if start`)
  is modelled explicitly: `none` and `some ""` are falsy.
-/

/-- ASCII lower-casing of one character, the behaviour of `str.lower` on the
ASCII range (email addresses and header names in this code are ASCII). -/
def py_lower_char (c : Char) : Char :=
  if 65 ≤ c.toNat ∧ c.toNat ≤ 90 then Char.ofNat (c.toNat + 32) else c

/-- Model of Python `str.lower` (ASCII). -/
def py_lower (s : String) : String :=
  ⟨s.data.map py_lower_char⟩

/-- Model of Python `str.strip`: drop whitespace from both ends. -/
def py_strip (s : String) : String :=
  ⟨((s.data.dropWhile Char.isWhitespace).reverse.dropWhile Char.isWhitespace).reverse⟩

/-- Accumulator-based splitter behind `py_split_comma`. -/
def py_split_comma_aux : List Char → List Char → List String
  | [], acc => [⟨acc.reverse⟩]
  | c :: rest, acc =>
    if c = ',' then ⟨acc.reverse⟩ :: py_split_comma_aux rest []
    else py_split_comma_aux rest (c :: acc)

/-- Model of Python `str.split(",")` (note `"".split(",") == [""]`). -/
def py_split_comma (s : String) : List String :=
  py_split_comma_aux s.data []

/-- Digit-run parser behind `py_int?`: `none` when a non-digit appears or no
digit was seen at all. -/
def py_digits? : List Char → Option Nat → Option Nat
  | [], acc => acc
  | c :: rest, acc =>
    if c.isDigit then py_digits? rest (some ((acc.getD 0) * 10 + (c.toNat - 48)))
    else none

/-- Model of Python `int(str)`: optional surrounding whitespace, optional
sign, a nonempty run of decimal digits; anything else raises (`none`). -/
def py_int? (s : String) : Option Int :=
  match (py_strip s).data with
  | '-' :: rest => (py_digits? rest none).map (fun n => -(n : Int))
  | '+' :: rest => (py_digits? rest none).map (fun n => (n : Int))
  | l => (py_digits? l none).map (fun n => (n : Int))

/-- Model of `str.replace("-", "/")` (single-character pattern). -/
def py_dash_to_slash (s : String) : String :=
  ⟨s.data.map (fun c => if c = '-' then '/' else c)⟩

/-- Direction of a message, see spec 4.2 (`classifyDirection`). -/
inductive Direction where
  | INBOUND
  | OUTBOUND
deriving DecidableEq

/-- Result record of `ai_assistant.triage_email` as consumed by the sync code
(`ai_category`, `ticket_category`, `summary`, `reasons`). -/
structure TriageRes where
  ai_category : String
  ticket_category : String
  summary : String
  reasons : List String
deriving DecidableEq

/-- Ambient pure context: configuration (`settings.MY_EMAILS`, the target
mailbox) and models of external library functions used by the sync engine.
`triage_email` and `fetch_body` return `none` to model a raised exception
(the sync code swallows those); `parseaddr` models `email.utils.parseaddr`;
`increment_day` models `date(...) + timedelta(days=1)` in `_increment_day`;
`recent_start` models `(date.today() - timedelta(days=30)).isoformat()`. -/
structure Ctx where
  parseaddr : String → String × String
  MY_EMAILS : String
  triage_email : String → String → String → Option TriageRes
  content_hash : String → String → String → String
  fetch_body : String → Option String
  target_mailbox : String
  recent_start : String
  increment_day : String → String

/-- `settings.my_emails_list`: split `MY_EMAILS` on commas, keep entries with
nonempty strip, lowercase the stripped entries. -/
def my_emails_list (ctx : Ctx) : List String :=
  ((py_split_comma ctx.MY_EMAILS).filter (fun e => py_strip e ≠ "")).map
    (fun e => py_lower (py_strip e))

/-- `gmail_client.parse_email_address`: parse an RFC5322-ish From header into
(display_name, email); the email is stripped and lowercased, empty results
become `none`, and a falsy header (absent or empty) yields `(none, none)`. -/
def parse_email_address (ctx : Ctx) (from_header : Option String) :
    Option String × Option String :=
  match from_header with
  | none => (none, none)
  | some s =>
    if s = "" then (none, none)
    else
      let p := ctx.parseaddr s
      ((if py_strip p.1 = "" then none else some (py_strip p.1)),
       (if py_strip p.2 = "" then none else some (py_lower (py_strip p.2))))

/-- `gmail_client.is_from_me`: true iff the parsed From address is present and
its lowercase form is a member of the (nonempty) configured address list. -/
def is_from_me (ctx : Ctx) (from_header : Option String) : Bool :=
  match (parse_email_address ctx from_header).2 with
  | none => false
  | some email =>
    (!(my_emails_list ctx).isEmpty) && decide (py_lower email ∈ my_emails_list ctx)

/-- One message of a thread as returned by `threads().get(format='metadata')`:
id, the `payload.headers` name/value list (either component may be absent in
the raw payload), label ids, the raw `internalDate` string and the snippet. -/
structure RemoteMessage where
  id : Option String
  headers : List (Option String × Option String)
  labelIds : List String
  internalDate : Option String
  snippet : Option String
deriving DecidableEq

/-- `gmail_sync._get_header`: first header whose (defaulted) name matches
case-insensitively; returns that header's value (which may itself be absent). -/
def get_header (headers : List (Option String × Option String)) (name : String) :
    Option String :=
  match headers with
  | [] => none
  | (n, v) :: rest =>
    if py_lower (n.getD "") = py_lower name then v else get_header rest name

/-- Timestamp of a message as computed inside the tracker loop of
`_upsert_ticket_from_thread`: absent or falsy `internalDate` gives `none`, and
a failed `int(...)` conversion is swallowed by the `try/except` into `none`. -/
def msg_dt (m : RemoteMessage) : Option Int :=
  match m.internalDate with
  | none => none
  | some s => if s = "" then none else py_int? s

/-- Timestamp of the last message as computed at lines 283-286 of
`gmail_sync.py`: here the `int(...)` conversion is NOT wrapped in
`try/except`, so a present, nonempty but non-numeric `internalDate` raises
(`.error`), which propagates out of `_upsert_ticket_from_thread`. -/
def last_dt_parse (m : RemoteMessage) : Except Unit (Option Int) :=
  match m.internalDate with
  | none => .ok none
  | some s =>
    if s = "" then .ok none
    else
      match py_int? s with
      | some n => .ok (some n)
      | none => .error ()

/-- Direction test from line 261 of `gmail_sync.py`:
`('SENT' in label_ids) or bool(is_from_me(from_h))`. -/
def message_outbound (ctx : Ctx) (m : RemoteMessage) : Bool :=
  decide ("SENT" ∈ m.labelIds) || is_from_me ctx (get_header m.headers "From")

/-- The message classifier of spec 4.2, packaging `message_outbound` as a
total function into `Direction`. -/
def classifyDirection (ctx : Ctx) (m : RemoteMessage) : Direction :=
  if message_outbound ctx m then .OUTBOUND else .INBOUND

/-- One tracker update: `if (last is None) or (dt > last): last = dt`. -/
def upd_tracker (acc : Option Int) (dt : Int) : Option Int :=
  match acc with
  | none => some dt
  | some a => if dt > a then some dt else some a

/-- One iteration of the awaiting-reply loop (lines 247-269): compute the
message timestamp, skip the message if it has none, otherwise update the
outbound or the inbound tracker according to the direction. -/
def track_step (ctx : Ctx) (acc : Option Int × Option Int) (m : RemoteMessage) :
    Option Int × Option Int :=
  match msg_dt m with
  | none => acc
  | some dt =>
    if message_outbound ctx m then (acc.1, upd_tracker acc.2 dt)
    else (upd_tracker acc.1 dt, acc.2)

/-- The (last_inbound_at, last_outbound_at) trackers after scanning the whole
thread, both starting unset. -/
def compute_trackers (ctx : Ctx) (msgs : List RemoteMessage) :
    Option Int × Option Int :=
  msgs.foldl (track_step ctx) (none, none)

/-- Line 271: `awaiting_reply = bool(last_inbound_at) and (last_outbound_at is
None or last_inbound_at > last_outbound_at)` (a `datetime` is always truthy,
so `bool(last_inbound_at)` is exactly `last_inbound_at is not None`). -/
def awaiting_reply (ctx : Ctx) (msgs : List RemoteMessage) : Bool :=
  match compute_trackers ctx msgs with
  | (none, _) => false
  | (some _, none) => true
  | (some li, some lo) => decide (li > lo)

/-- Timestamps of the messages the loop classifies as inbound and does not
skip for lack of a parseable timestamp (declarative view for the spec). -/
def inbound_ts (ctx : Ctx) (msgs : List RemoteMessage) : List Int :=
  msgs.filterMap (fun m => if message_outbound ctx m then none else msg_dt m)

/-- Timestamps of the messages the loop classifies as outbound and does not
skip for lack of a parseable timestamp (declarative view for the spec). -/
def outbound_ts (ctx : Ctx) (msgs : List RemoteMessage) : List Int :=
  msgs.filterMap (fun m => if message_outbound ctx m then msg_dt m else none)

/-- Declarative "most recent timestamp of the list" predicate. -/
def isMostRecent (x : Int) (l : List Int) : Prop :=
  x ∈ l ∧ ∀ y ∈ l, y ≤ x

-- ### Tracker lemmas

theorem upd_tracker_some (a dt : Int) :
    upd_tracker (some a) dt = some (max a dt) := by
  simp only [upd_tracker]
  rcases le_or_lt dt a with h | h
  · rw [if_neg (by omega), max_eq_left h]
  · rw [if_pos (by omega), max_eq_right (le_of_lt h)]

theorem foldl_upd_tracker_some (l : List Int) :
    ∀ a : Int, l.foldl upd_tracker (some a) = some (l.foldl max a) := by
  induction l with
  | nil => intro a; rfl
  | cons b t ih =>
    intro a
    rw [List.foldl_cons, List.foldl_cons, upd_tracker_some]
    exact ih (max a b)

theorem foldl_max_isMostRecent (l : List Int) :
    ∀ a : Int, isMostRecent (l.foldl max a) (a :: l) := by
  induction l with
  | nil =>
    intro a
    refine ⟨by simp, ?_⟩
    intro y hy
    rw [List.foldl_nil]
    have := List.mem_singleton.mp hy
    omega
  | cons b t ih =>
    intro a
    rw [List.foldl_cons]
    obtain ⟨hmem, hub⟩ := ih (max a b)
    refine ⟨?_, ?_⟩
    · rcases List.mem_cons.mp hmem with h | h
      · rcases max_choice a b with hc | hc
        · rw [h, hc]; exact List.mem_cons_self _ _
        · rw [h, hc]
          exact List.mem_cons.mpr (Or.inr (List.mem_cons_self _ _))
      · exact List.mem_cons.mpr (Or.inr (List.mem_cons.mpr (Or.inr h)))
    · intro y hy
      rcases List.mem_cons.mp hy with h | hy2
      · rw [h]
        exact le_trans (le_max_left a b) (hub _ (List.mem_cons_self _ _))
      · rcases List.mem_cons.mp hy2 with h | hy3
        · rw [h]
          exact le_trans (le_max_right a b) (hub _ (List.mem_cons_self _ _))
        · exact hub _ (List.mem_cons.mpr (Or.inr hy3))

theorem isMostRecent_unique {x y : Int} {l : List Int}
    (hx : isMostRecent x l) (hy : isMostRecent y l) : x = y :=
  le_antisymm (hy.2 x hx.1) (hx.2 y hy.1)

theorem foldl_upd_tracker_none_spec (l : List Int) :
    (l = [] ∧ l.foldl upd_tracker none = none) ∨
      ∃ x, l.foldl upd_tracker none = some x ∧ isMostRecent x l := by
  cases l with
  | nil => exact Or.inl ⟨rfl, rfl⟩
  | cons b t =>
    refine Or.inr ⟨t.foldl max b, ?_, foldl_max_isMostRecent t b⟩
    rw [List.foldl_cons]
    exact foldl_upd_tracker_some t b

theorem track_step_eq (ctx : Ctx) (m : RemoteMessage) (acc : Option Int × Option Int) :
    track_step ctx acc m =
      ((match (if message_outbound ctx m then none else msg_dt m) with
        | none => acc.1
        | some dt => upd_tracker acc.1 dt),
       (match (if message_outbound ctx m then msg_dt m else none) with
        | none => acc.2
        | some dt => upd_tracker acc.2 dt)) := by
  simp only [track_step]
  cases h : msg_dt m with
  | none => cases hb : message_outbound ctx m <;> simp [h]
  | some dt => cases hb : message_outbound ctx m <;> simp [h]

theorem compute_trackers_aux (ctx : Ctx) (msgs : List RemoteMessage) :
    ∀ acc : Option Int × Option Int,
      msgs.foldl (track_step ctx) acc =
        ((inbound_ts ctx msgs).foldl upd_tracker acc.1,
         (outbound_ts ctx msgs).foldl upd_tracker acc.2) := by
  induction msgs with
  | nil => intro acc; rfl
  | cons m rest ih =>
    intro acc
    simp only [List.foldl_cons, inbound_ts, outbound_ts, List.filterMap_cons] at *
    rw [track_step_eq]
    cases hb : message_outbound ctx m with
    | false =>
      cases h : msg_dt m with
      | none => simpa using ih _
      | some dt => simpa using ih _
    | true =>
      cases h : msg_dt m with
      | none => simpa using ih _
      | some dt => simpa using ih _

theorem compute_trackers_eq (ctx : Ctx) (msgs : List RemoteMessage) :
    compute_trackers ctx msgs =
      ((inbound_ts ctx msgs).foldl upd_tracker none,
       (outbound_ts ctx msgs).foldl upd_tracker none) :=
  compute_trackers_aux ctx msgs (none, none)

theorem awaiting_reply_eq_match (ctx : Ctx) (msgs : List RemoteMessage) :
    awaiting_reply ctx msgs =
      (match compute_trackers ctx msgs with
        | (none, _) => false
        | (some _, none) => true
        | (some li, some lo) => decide (li > lo)) := rfl

/-- C1. The awaiting-reply computation of `_upsert_ticket_from_thread`:
`awaiting_reply` is true iff there is a most-recent inbound timestamp and
either no outbound timestamp exists, or the most-recent inbound timestamp is
strictly greater than the most-recent outbound one; and the trackers start
unset (`upd_tracker` on `none` takes the first timestamp) and update only to
a strictly later timestamp. -/
theorem awaiting_reply_most_recent (ctx : Ctx) (msgs : List RemoteMessage) :
    (awaiting_reply ctx msgs = true ↔
      ∃ ti, isMostRecent ti (inbound_ts ctx msgs) ∧
        (outbound_ts ctx msgs = [] ∨
          ∃ to2, isMostRecent to2 (outbound_ts ctx msgs) ∧ to2 < ti)) ∧
    (∀ dt, upd_tracker none dt = some dt) ∧
    (∀ a dt, a < dt → upd_tracker (some a) dt = some dt) ∧
    (∀ a dt, dt ≤ a → upd_tracker (some a) dt = some a) := by
  refine ⟨?_, fun dt => rfl, ?_, ?_⟩
  · rw [awaiting_reply_eq_match, compute_trackers_eq]
    rcases foldl_upd_tracker_none_spec (inbound_ts ctx msgs) with ⟨hnil, hin⟩ | ⟨ti, hin, hti⟩
    · rw [hin]
      constructor
      · intro h; exact absurd h (by simp)
      · rintro ⟨ti, ⟨hmem, _⟩, _⟩
        rw [hnil] at hmem
        exact absurd hmem (List.not_mem_nil ti)
    · rw [hin]
      rcases foldl_upd_tracker_none_spec (outbound_ts ctx msgs) with ⟨honil, hout⟩ | ⟨to1, hout, hto⟩
      · rw [hout]
        exact ⟨fun _ => ⟨ti, hti, Or.inl honil⟩, fun _ => rfl⟩
      · rw [hout]
        simp only [decide_eq_true_eq, gt_iff_lt]
        constructor
        · intro h
          exact ⟨ti, hti, Or.inr ⟨to1, hto, h⟩⟩
        · rintro ⟨ti2, hti2, hcase⟩
          rcases hcase with hnil2 | ⟨to2, hto2, hlt⟩
          · rw [hnil2] at hto
            exact absurd hto.1 (List.not_mem_nil to1)
          · have e1 : to1 = to2 := isMostRecent_unique hto hto2
            have e2 : ti = ti2 := isMostRecent_unique hti hti2
            omega
  · intro a dt h
    simp only [upd_tracker]
    rw [if_pos (by omega)]
  · intro a dt h
    simp only [upd_tracker]
    rw [if_neg (by omega)]

/-- Shared concrete context used by the witnesses. -/
def ctxW : Ctx :=
  { parseaddr := fun s => ("", s)
    MY_EMAILS := "me@x.com"
    triage_email := fun _ _ _ => none
    content_hash := fun _ _ _ => "h0"
    fetch_body := fun _ => some ""
    target_mailbox := "me"
    recent_start := "2024-01-01"
    increment_day := fun s => s }

def msgInW : RemoteMessage :=
  { id := some "m1"
    headers := [(some "From", some "alice@y.com")]
    labelIds := ["INBOX"]
    internalDate := some "2000"
    snippet := some "hello" }

def msgOutW : RemoteMessage :=
  { id := some "m0"
    headers := [(some "From", some "me@x.com")]
    labelIds := ["SENT"]
    internalDate := some "1000"
    snippet := some "hi" }

/-- Witness for C1 at a concrete input: a single inbound message at t=2000
after an outbound one at t=1000 leaves the thread awaiting a reply. -/
theorem awaiting_reply_most_recent_witness :
    awaiting_reply ctxW [msgOutW, msgInW] = true := by
  refine (awaiting_reply_most_recent ctxW [msgOutW, msgInW]).1.mpr ?_
  have hin : inbound_ts ctxW [msgOutW, msgInW] = [2000] := by decide
  have hout : outbound_ts ctxW [msgOutW, msgInW] = [1000] := by decide
  rw [hin, hout]
  refine ⟨2000, ⟨by decide, ?_⟩, Or.inr ⟨1000, ⟨by decide, ?_⟩, by decide⟩⟩
  · intro y hy
    have := List.mem_singleton.mp hy
    omega
  · intro y hy
    have := List.mem_singleton.mp hy
    omega

/-- C2. `classifyDirection` returns OUTBOUND iff the SENT label is present or
the email parsed from the From header matches, case-insensitively, a
(nonempty-after-strip) entry of the configured `MY_EMAILS` list; in every
other case INBOUND.  Determinism and purity hold by construction: the
classifier is a function of the message and the configuration only. -/
theorem classifyDirection_spec (ctx : Ctx) (m : RemoteMessage) :
    (classifyDirection ctx m = .OUTBOUND ↔
      ("SENT" ∈ m.labelIds ∨
        ∃ e, (parse_email_address ctx (get_header m.headers "From")).2 = some e ∧
          ∃ c ∈ py_split_comma ctx.MY_EMAILS, py_strip c ≠ "" ∧
            py_lower e = py_lower (py_strip c))) ∧
    (classifyDirection ctx m = .INBOUND ↔ ¬ classifyDirection ctx m = .OUTBOUND) := by
  have hfm : is_from_me ctx (get_header m.headers "From") = true ↔
      ∃ e, (parse_email_address ctx (get_header m.headers "From")).2 = some e ∧
        ∃ c ∈ py_split_comma ctx.MY_EMAILS, py_strip c ≠ "" ∧
          py_lower e = py_lower (py_strip c) := by
    simp only [is_from_me]
    cases hpe : (parse_email_address ctx (get_header m.headers "From")).2 with
    | none =>
      constructor
      · intro h; exact absurd h (by simp)
      · rintro ⟨e, he, -⟩; exact absurd he (by simp)
    | some e =>
      simp only [Bool.and_eq_true, decide_eq_true_eq]
      constructor
      · rintro ⟨-, hmem⟩
        simp only [my_emails_list, List.mem_map, List.mem_filter,
          decide_eq_true_eq] at hmem
        obtain ⟨c, ⟨hc1, hc2⟩, hc3⟩ := hmem
        exact ⟨e, rfl, c, hc1, hc2, hc3.symm⟩
      · rintro ⟨e2, he2, c, hc1, hc2, hc3⟩
        obtain rfl : e = e2 := Option.some.inj he2
        have hmem : py_lower e ∈ my_emails_list ctx := by
          simp only [my_emails_list, List.mem_map, List.mem_filter,
            decide_eq_true_eq]
          exact ⟨c, ⟨hc1, hc2⟩, hc3.symm⟩
        refine ⟨?_, hmem⟩
        cases hL : my_emails_list ctx with
        | nil => rw [hL] at hmem; exact absurd hmem (List.not_mem_nil _)
        | cons x xs => rfl
  constructor
  · simp only [classifyDirection]
    constructor
    · intro h
      have hb : message_outbound ctx m = true := by
        by_contra hc
        rw [Bool.not_eq_true] at hc
        rw [hc] at h
        exact absurd h (by simp)
      simp only [message_outbound, Bool.or_eq_true, decide_eq_true_eq] at hb
      rcases hb with hb | hb
      · exact Or.inl hb
      · exact Or.inr (hfm.mp hb)
    · intro h
      have hb : message_outbound ctx m = true := by
        simp only [message_outbound, Bool.or_eq_true, decide_eq_true_eq]
        rcases h with h | h
        · exact Or.inl h
        · exact Or.inr (hfm.mpr h)
      rw [hb]
      rfl
  · simp only [classifyDirection]
    cases message_outbound ctx m <;> simp

/-- Witness for C2 at a concrete input: a message from an address matching
`MY_EMAILS` up to case and whitespace, without the SENT label, classifies as
OUTBOUND. -/
def msgAliasW : RemoteMessage :=
  { id := some "m2"
    headers := [(some "FROM", some " Me@X.Com ")]
    labelIds := ["INBOX"]
    internalDate := some "3000"
    snippet := none }

theorem classifyDirection_spec_witness :
    classifyDirection ctxW msgAliasW = .OUTBOUND := by
  refine (classifyDirection_spec ctxW msgAliasW).1.mpr ?_
  exact Or.inr ⟨"me@x.com", by decide, "me@x.com", by decide, by decide, by decide⟩

/-- C10. Messages whose `internalDate` is absent or unparseable are excluded
from both trackers: filtering them away does not change the trackers; in
particular a thread in which no message has a parseable timestamp, or whose
inbound messages all lack one, is not awaiting a reply. -/
theorem trackers_ignore_missing_timestamps (ctx : Ctx) (msgs : List RemoteMessage) :
    (compute_trackers ctx (msgs.filter (fun m => (msg_dt m).isSome)) =
      compute_trackers ctx msgs) ∧
    ((∀ m ∈ msgs, msg_dt m = none) → awaiting_reply ctx msgs = false) ∧
    ((∀ m ∈ msgs, message_outbound ctx m = false → msg_dt m = none) →
      awaiting_reply ctx msgs = false) := by
  have hfilter : ∀ (l : List RemoteMessage) (acc : Option Int × Option Int),
      (l.filter (fun m => (msg_dt m).isSome)).foldl (track_step ctx) acc =
        l.foldl (track_step ctx) acc := by
    intro l
    induction l with
    | nil => intro acc; rfl
    | cons m rest ih =>
      intro acc
      cases h : msg_dt m with
      | none =>
        have hstep : track_step ctx acc m = acc := by
          simp [track_step, h]
        rw [List.filter_cons, if_neg (by simp [h]), List.foldl_cons, hstep]
        exact ih acc
      | some dt =>
        rw [List.filter_cons, if_pos (by simp [h]), List.foldl_cons,
          List.foldl_cons]
        exact ih _
  have hmain : ∀ _ : (∀ m ∈ msgs, message_outbound ctx m = false → msg_dt m = none),
      awaiting_reply ctx msgs = false := by
    intro h
    have hnil : inbound_ts ctx msgs = [] := by
      rw [inbound_ts, List.filterMap_eq_nil_iff]
      intro m hm
      cases hb : message_outbound ctx m with
      | true => simp
      | false => simp [h m hm hb]
    rw [awaiting_reply_eq_match, compute_trackers_eq, hnil]
    rfl
  refine ⟨hfilter msgs (none, none), ?_, hmain⟩
  intro h
  exact hmain (fun m hm _ => h m hm)

/-- Witness for C10 at a concrete input: an inbound message with an
unparseable `internalDate` leaves the thread not awaiting a reply. -/
def msgNoTsW : RemoteMessage :=
  { id := some "m3"
    headers := [(some "From", some "bob@y.com")]
    labelIds := ["INBOX"]
    internalDate := some "not-a-number"
    snippet := none }

theorem trackers_ignore_missing_timestamps_witness :
    awaiting_reply ctxW [msgNoTsW] = false :=
  (trackers_ignore_missing_timestamps ctxW [msgNoTsW]).2.1 (by decide)

-- ## The ticket model and the thread reconciler

/-- `models.TicketStatus`. -/
inductive TicketStatus where
  | PENDING
  | IN_PROGRESS
  | RESPONDED
  | NO_REPLY_NEEDED
deriving DecidableEq

/-- The fields of `models.ThreadTicket` that `_upsert_ticket_from_thread`
reads or writes.  Optional columns are `Option`; `priority` is `Option`
because the SQLAlchemy column default ("medium") is only applied at flush
time, after the reconciler has already run its own `if not ticket.priority`
defaulting.  Ownership/SLA/draft/reminder columns are never touched or read
by the sync engine and are omitted.  `updated_at` and `ai_last_scored_at`
hold the `now` instant passed to the reconciler (`datetime.utcnow()`). -/
structure Ticket where
  thread_id : String
  last_message_id : Option String
  subject : Option String
  snippet : Option String
  from_name : Option String
  from_email : Option String
  last_message_at : Option Int
  last_from_me : Bool
  is_unread : Bool
  is_not_replied : Bool
  priority : Option String
  due_at : Option Int
  status : TicketStatus
  category : Option String
  ai_category : Option String
  ai_urgency : Option Int
  ai_confidence : Option Int
  ai_reasons : Option String
  ai_summary : Option String
  ai_source_hash : Option String
  ai_last_scored_at : Option Int
  updated_at : Option Int
deriving DecidableEq

/-- `ThreadTicket(thread_id=thread_id, status=TicketStatus.PENDING)`: a fresh
ORM object before any flush; unset columns are `none`/`false`. -/
def new_ticket (tid : String) : Ticket :=
  { thread_id := tid
    last_message_id := none
    subject := none
    snippet := none
    from_name := none
    from_email := none
    last_message_at := none
    last_from_me := false
    is_unread := false
    is_not_replied := false
    priority := none
    due_at := none
    status := .PENDING
    category := none
    ai_category := none
    ai_urgency := none
    ai_confidence := none
    ai_reasons := none
    ai_summary := none
    ai_source_hash := none
    ai_last_scored_at := none
    updated_at := none }

/-- Milliseconds per day: `timedelta(days = n)` on millisecond timestamps. -/
def msPerDay : Int := 86400000

/-- `{'high': 0, 'medium': 2, 'low': 3}.get(ticket.priority, 2)`. -/
def due_days (p : Option String) : Int :=
  match p with
  | some "high" => 0
  | some "medium" => 2
  | some "low" => 3
  | _ => 2

/-- `if not ticket.priority: ticket.priority = 'medium'` (Python falsy:
`None` or the empty string). -/
def default_priority (p : Option String) : Option String :=
  match p with
  | none => some "medium"
  | some s => if s = "" then some "medium" else some s

/-- The automatic status reconciliation of lines 326-331: an awaiting thread
demotes RESPONDED to PENDING; a caught-up thread promotes any status except
NO_REPLY_NEEDED to RESPONDED. -/
def reconcile_status (aw : Bool) (s : TicketStatus) : TicketStatus :=
  if aw then
    if s = .RESPONDED then .PENDING else s
  else
    if s ≠ .NO_REPLY_NEEDED then .RESPONDED else s

/-- The try/except-wrapped AI categorisation block (lines 334-360): runs only
when `auto_triage` and the thread is awaiting a reply; fetches and decodes
the last message body (failure, `none`, is swallowed leaving the ticket
unchanged); skips entirely when the content hash matches the cached one;
otherwise calls the triage service (failure again swallowed) and applies its
result, caching the hash and stamping `ai_last_scored_at`. -/
def ai_body (ctx : Ctx) (last_msg_id : Option String) : Option String :=
  match last_msg_id with
  | some mid => if mid = "" then some "" else ctx.fetch_body mid
  | none => some ""

def ai_step (ctx : Ctx) (auto_triage aw : Bool) (last_msg_id : Option String)
    (subject snippet : String) (now : Int) (t : Ticket) : Ticket :=
  if auto_triage && aw then
    match ai_body ctx last_msg_id with
    | none => t
    | some last_body =>
      if t.ai_source_hash = some (ctx.content_hash subject snippet (last_body.take 4000)) then t
      else
        match ctx.triage_email subject snippet (last_body.take 4000) with
        | none => t
        | some tri =>
          { t with
            ai_category := some tri.ai_category
            category := some tri.ticket_category
            ai_summary := some tri.summary
            ai_reasons := some (String.intercalate "\n" tri.reasons)
            ai_source_hash := some (ctx.content_hash subject snippet (last_body.take 4000))
            ai_last_scored_at := some now
            ai_urgency := none
            ai_confidence := none }
  else t

/-- The field assignments of lines 304-362 applied to the looked-up or
freshly created ticket, in source order: display fields, priority default,
due date (only when the last message has a timestamp), `is_not_replied`,
status reconciliation, AI step, `updated_at`. -/
def apply_ticket_updates (ctx : Ctx) (aw auto_triage : Bool)
    (last_msg_id : Option String) (subject snippet : String)
    (last_dt : Option Int) (is_unread last_from_me : Bool)
    (from_name from_email : Option String) (now : Int) (t0 : Ticket) : Ticket :=
  let t1 := { t0 with
    last_message_id := last_msg_id
    subject := some subject
    snippet := some snippet
    last_message_at := last_dt
    is_unread := is_unread
    last_from_me := last_from_me
    from_name := from_name
    from_email := from_email }
  let t2 := { t1 with priority := default_priority t1.priority }
  let t3 :=
    match last_dt with
    | some d => { t2 with due_at := some (d + msPerDay * due_days t2.priority) }
    | none => t2
  let t4 := { t3 with is_not_replied := aw }
  let t5 := { t4 with status := reconcile_status aw t4.status }
  let t6 := ai_step ctx auto_triage aw last_msg_id subject snippet now t5
  { t6 with updated_at := some now }

/-- Blacklist test of lines 288-292: only performed when the parsed sender
email is present; membership of the lowercased address in the stored
`BlacklistedSender.email` column values. -/
def blacklisted (from_email : Option String) (bl : List String) : Bool :=
  match from_email with
  | none => false
  | some e => decide (py_lower e ∈ bl)

/-- The decision core of `_upsert_ticket_from_thread` for one thread, given
the looked-up ticket: `.ok none` models `return False` (skip, nothing
persisted), `.ok (some t)` models `return True` with `t` the upserted row,
and `.error ()` models the uncaught exception raised at line 286 when the
last message carries a present, nonempty but unparseable `internalDate`. -/
def upsert_decision (ctx : Ctx) (bl : List String) (now : Int) (tid : String)
    (msgs : List RemoteMessage) (awaiting_only auto_triage : Bool)
    (t? : Option Ticket) : Except Unit (Option Ticket) :=
  match msgs.getLast? with
  | none => .ok none
  | some last_msg =>
    let aw := awaiting_reply ctx msgs
    let from_h := get_header last_msg.headers "From"
    let subject :=
      match get_header last_msg.headers "Subject" with
      | some s => if s = "" then "(no subject)" else s
      | none => "(no subject)"
    let snippet := (last_msg.snippet).getD ""
    let is_unread := msgs.any (fun m => decide ("UNREAD" ∈ m.labelIds))
    match last_dt_parse last_msg with
    | .error e => .error e
    | .ok last_dt =>
      let pe := parse_email_address ctx from_h
      if blacklisted pe.2 bl then .ok none
      else if t?.isNone && awaiting_only && !aw then .ok none
      else
        let t0 := t?.getD (new_ticket tid)
        let last_from_me :=
          decide ("SENT" ∈ last_msg.labelIds) || is_from_me ctx from_h
        .ok (some (apply_ticket_updates ctx aw auto_triage last_msg.id subject
          snippet last_dt is_unread last_from_me pe.1 pe.2 now t0))

/-- The Ticket store: at most one row per thread id by construction
(`thread_id` is the primary key). -/
def TicketMap := String → Option Ticket

/-- `_upsert_ticket_from_thread` at the store level: look up the row by
primary key, run the decision, and on `True` stage exactly one upsert keyed
by the thread id. -/
def upsert_ticket_from_thread (ctx : Ctx) (bl : List String) (now : Int)
    (msgs : List RemoteMessage) (tid : String) (awaiting_only auto_triage : Bool)
    (tickets : TicketMap) : Except Unit (Bool × TicketMap) :=
  match upsert_decision ctx bl now tid msgs awaiting_only auto_triage (tickets tid) with
  | .error e => .error e
  | .ok none => .ok (false, tickets)
  | .ok (some t) => .ok (true, fun k => if k = tid then some t else tickets k)

-- ## Reconciler lemmas

/-- Parsed (name, email) of a message's From header, as the reconciler
computes it for the last message. -/
def from_pe (ctx : Ctx) (m : RemoteMessage) : Option String × Option String :=
  parse_email_address ctx (get_header m.headers "From")

/-- Display subject of the last message: `_get_header(...) or '(no subject)'`. -/
def subject_of (m : RemoteMessage) : String :=
  match get_header m.headers "Subject" with
  | some s => if s = "" then "(no subject)" else s
  | none => "(no subject)"

/-- Display snippet of the last message: `last_msg.get('snippet') or ''`. -/
def snippet_of (m : RemoteMessage) : String :=
  (m.snippet).getD ""

theorem getLast?_eq_none_iff {α : Type} (l : List α) :
    l.getLast? = none ↔ l = [] := by
  cases l with
  | nil => simp
  | cons a t =>
    simp only [List.getLast?]
    constructor
    · intro h; exact absurd h (by simp)
    · intro h; exact absurd h (by simp)

/-- The ticket the reconciler builds when it reaches the upsert, spelled out
so the trichotomy below stays readable. -/
def built_ticket (ctx : Ctx) (now : Int) (tid : String)
    (msgs : List RemoteMessage) (auto_triage : Bool) (lm : RemoteMessage)
    (ld : Option Int) (t? : Option Ticket) : Ticket :=
  apply_ticket_updates ctx (awaiting_reply ctx msgs) auto_triage lm.id
    (subject_of lm) (snippet_of lm) ld
    (msgs.any (fun m => decide ("UNREAD" ∈ m.labelIds)))
    (decide ("SENT" ∈ lm.labelIds) || is_from_me ctx (get_header lm.headers "From"))
    (from_pe ctx lm).1 (from_pe ctx lm).2 now (t?.getD (new_ticket tid))

/-- Exhaustive case analysis of `upsert_decision`: no messages, unparseable
last timestamp (raise), blacklisted sender, awaiting-only filter, or upsert. -/
theorem upsert_decision_cases (ctx : Ctx) (bl : List String) (now : Int)
    (tid : String) (msgs : List RemoteMessage) (ao at2 : Bool) (t? : Option Ticket) :
    (msgs.getLast? = none ∧
      upsert_decision ctx bl now tid msgs ao at2 t? = .ok none) ∨
    (∃ lm, msgs.getLast? = some lm ∧ last_dt_parse lm = .error () ∧
      upsert_decision ctx bl now tid msgs ao at2 t? = .error ()) ∨
    (∃ lm ld, msgs.getLast? = some lm ∧ last_dt_parse lm = .ok ld ∧
      blacklisted (from_pe ctx lm).2 bl = true ∧
      upsert_decision ctx bl now tid msgs ao at2 t? = .ok none) ∨
    (∃ lm ld, msgs.getLast? = some lm ∧ last_dt_parse lm = .ok ld ∧
      blacklisted (from_pe ctx lm).2 bl = false ∧
      (t?.isNone && ao && !(awaiting_reply ctx msgs)) = true ∧
      upsert_decision ctx bl now tid msgs ao at2 t? = .ok none) ∨
    (∃ lm ld, msgs.getLast? = some lm ∧ last_dt_parse lm = .ok ld ∧
      blacklisted (from_pe ctx lm).2 bl = false ∧
      (t?.isNone && ao && !(awaiting_reply ctx msgs)) = false ∧
      upsert_decision ctx bl now tid msgs ao at2 t? =
        .ok (some (built_ticket ctx now tid msgs at2 lm ld t?))) := by
  cases hlm : msgs.getLast? with
  | none =>
    refine Or.inl ⟨rfl, ?_⟩
    simp only [upsert_decision, hlm]
  | some lm =>
    cases hld : last_dt_parse lm with
    | error e =>
      refine Or.inr (Or.inl ⟨lm, rfl, ?_, ?_⟩)
      · cases e; exact hld
      · simp only [upsert_decision, hlm, hld]
    | ok ld =>
      cases hbl : blacklisted (from_pe ctx lm).2 bl with
      | true =>
        refine Or.inr (Or.inr (Or.inl ⟨lm, ld, rfl, hld, hbl, ?_⟩))
        simp only [upsert_decision, hlm, hld]
        rw [show (parse_email_address ctx (get_header lm.headers "From")).2 =
          (from_pe ctx lm).2 from rfl, hbl]
        simp
      | false =>
        cases hsk : (t?.isNone && ao && !(awaiting_reply ctx msgs)) with
        | true =>
          refine Or.inr (Or.inr (Or.inr (Or.inl ⟨lm, ld, rfl, hld, hbl, rfl, ?_⟩)))
          simp only [upsert_decision, hlm, hld]
          rw [show (parse_email_address ctx (get_header lm.headers "From")).2 =
            (from_pe ctx lm).2 from rfl, hbl, hsk]
          simp
        | false =>
          refine Or.inr (Or.inr (Or.inr (Or.inr ⟨lm, ld, rfl, hld, hbl, rfl, ?_⟩)))
          simp only [upsert_decision, hlm, hld]
          rw [show (parse_email_address ctx (get_header lm.headers "From")).2 =
            (from_pe ctx lm).2 from rfl, hbl, hsk]
          simp only [Bool.false_eq_true, if_false]
          rfl

/-- The AI step only ever changes the AI metadata fields (and `category`);
every other column of the ticket is untouched. -/
theorem ai_step_eq_merge (ctx : Ctx) (b aw : Bool) (lmid : Option String)
    (subj snip : String) (now : Int) (t : Ticket) :
    ai_step ctx b aw lmid subj snip now t =
      { t with
        ai_category := (ai_step ctx b aw lmid subj snip now t).ai_category
        category := (ai_step ctx b aw lmid subj snip now t).category
        ai_summary := (ai_step ctx b aw lmid subj snip now t).ai_summary
        ai_reasons := (ai_step ctx b aw lmid subj snip now t).ai_reasons
        ai_source_hash := (ai_step ctx b aw lmid subj snip now t).ai_source_hash
        ai_last_scored_at := (ai_step ctx b aw lmid subj snip now t).ai_last_scored_at
        ai_urgency := (ai_step ctx b aw lmid subj snip now t).ai_urgency
        ai_confidence := (ai_step ctx b aw lmid subj snip now t).ai_confidence } := by
  rw [ai_step.eq_def]
  split
  · split
    · rfl
    · split
      · rfl
      · split
        · rfl
        · rfl
  · rfl

theorem ai_step_status (ctx : Ctx) (b aw : Bool) (lmid : Option String)
    (subj snip : String) (now : Int) (t : Ticket) :
    (ai_step ctx b aw lmid subj snip now t).status = t.status := by
  conv_lhs => rw [ai_step_eq_merge]

theorem ai_step_due_at (ctx : Ctx) (b aw : Bool) (lmid : Option String)
    (subj snip : String) (now : Int) (t : Ticket) :
    (ai_step ctx b aw lmid subj snip now t).due_at = t.due_at := by
  conv_lhs => rw [ai_step_eq_merge]

theorem ai_step_last_message_at (ctx : Ctx) (b aw : Bool) (lmid : Option String)
    (subj snip : String) (now : Int) (t : Ticket) :
    (ai_step ctx b aw lmid subj snip now t).last_message_at = t.last_message_at := by
  conv_lhs => rw [ai_step_eq_merge]

theorem ai_step_priority (ctx : Ctx) (b aw : Bool) (lmid : Option String)
    (subj snip : String) (now : Int) (t : Ticket) :
    (ai_step ctx b aw lmid subj snip now t).priority = t.priority := by
  conv_lhs => rw [ai_step_eq_merge]

/-- Status of the reconciled ticket: the automatic reconciliation applied to
the prior status (PENDING for a freshly created row). -/
theorem apply_ticket_updates_status (ctx : Ctx) (aw at2 : Bool)
    (lmid : Option String) (subj snip : String) (ld : Option Int)
    (unread lfm : Bool) (fn fe : Option String) (now : Int) (t0 : Ticket) :
    (apply_ticket_updates ctx aw at2 lmid subj snip ld unread lfm fn fe now t0).status =
      reconcile_status aw t0.status := by
  simp only [apply_ticket_updates]
  rw [ai_step_status]
  cases ld <;> rfl

/-- Last-message timestamp and due date of the reconciled ticket: the
timestamp is always overwritten; the due date is recomputed from it and the
defaulted priority when it is present, and left at its prior value when the
last message has no timestamp. -/
theorem apply_ticket_updates_due (ctx : Ctx) (aw at2 : Bool)
    (lmid : Option String) (subj snip : String) (ld : Option Int)
    (unread lfm : Bool) (fn fe : Option String) (now : Int) (t0 : Ticket) :
    (apply_ticket_updates ctx aw at2 lmid subj snip ld unread lfm fn fe now t0).last_message_at = ld ∧
    (∀ d, ld = some d →
      (apply_ticket_updates ctx aw at2 lmid subj snip ld unread lfm fn fe now t0).due_at =
        some (d + msPerDay * due_days (default_priority t0.priority))) ∧
    (ld = none →
      (apply_ticket_updates ctx aw at2 lmid subj snip ld unread lfm fn fe now t0).due_at =
        t0.due_at) := by
  refine ⟨?_, ?_, ?_⟩
  · simp only [apply_ticket_updates]
    rw [ai_step_last_message_at]
    cases ld <;> rfl
  · intro d hd
    subst hd
    simp only [apply_ticket_updates]
    rw [ai_step_due_at]
  · intro hd
    subst hd
    simp only [apply_ticket_updates]
    rw [ai_step_due_at]

/-- C3.  Status reconciliation of `_upsert_ticket_from_thread`: whenever the
reconciler updates a ticket, an awaiting thread demotes RESPONDED to PENDING
and leaves any other status alone; a caught-up thread promotes every status
except NO_REPLY_NEEDED to RESPONDED; and NO_REPLY_NEEDED is never changed by
this automatic step.  The prior status of a freshly created row is PENDING. -/
theorem status_reconciliation_spec (ctx : Ctx) (bl : List String) (now : Int)
    (tid : String) (msgs : List RemoteMessage) (ao at2 : Bool)
    (t? : Option Ticket) (t2 : Ticket)
    (h : upsert_decision ctx bl now tid msgs ao at2 t? = .ok (some t2)) :
    (awaiting_reply ctx msgs = true ∧ (t?.getD (new_ticket tid)).status = .RESPONDED →
      t2.status = .PENDING) ∧
    (awaiting_reply ctx msgs = true ∧ (t?.getD (new_ticket tid)).status ≠ .RESPONDED →
      t2.status = (t?.getD (new_ticket tid)).status) ∧
    (awaiting_reply ctx msgs = false ∧ (t?.getD (new_ticket tid)).status ≠ .NO_REPLY_NEEDED →
      t2.status = .RESPONDED) ∧
    ((t?.getD (new_ticket tid)).status = .NO_REPLY_NEEDED →
      t2.status = .NO_REPLY_NEEDED) := by
  have hst : t2.status = reconcile_status (awaiting_reply ctx msgs) (t?.getD (new_ticket tid)).status := by
    rcases upsert_decision_cases ctx bl now tid msgs ao at2 t? with
      ⟨-, hv⟩ | ⟨lm, -, -, hv⟩ | ⟨lm, ld, -, -, -, hv⟩ | ⟨lm, ld, -, -, -, -, hv⟩ |
      ⟨lm, ld, -, -, -, -, hv⟩
    · rw [hv] at h; exact absurd h (by simp)
    · rw [hv] at h; exact absurd h (by simp)
    · rw [hv] at h; exact absurd h (by simp)
    · rw [hv] at h; exact absurd h (by simp)
    · rw [hv] at h
      have := Option.some.inj (Except.ok.inj h)
      rw [← this, built_ticket, apply_ticket_updates_status]
  rw [hst]
  set s0 := (t?.getD (new_ticket tid)).status with hs0
  refine ⟨?_, ?_, ?_, ?_⟩
  · rintro ⟨haw, hresp⟩
    rw [haw, hresp, reconcile_status]
    simp
  · rintro ⟨haw, hresp⟩
    rw [haw, reconcile_status]
    simp [hresp]
  · rintro ⟨haw, hnrn⟩
    rw [haw, reconcile_status]
    simp [hnrn]
  · intro hnrn
    rw [hnrn, reconcile_status]
    cases awaiting_reply ctx msgs <;> simp

/-- Projection helper: the upserted ticket of a decision, if any. -/
def decision_ticket : Except Unit (Option Ticket) → Option Ticket
  | .ok o => o
  | .error _ => none

/-- Projection helper: did the decision raise. -/
def decision_is_error : Except Unit (Option Ticket) → Bool
  | .error _ => true
  | .ok _ => false

/-- Projection helper at the store level: did the call raise. -/
def upsert_is_error : Except Unit (Bool × TicketMap) → Bool
  | .error _ => true
  | .ok _ => false

/-- Witness for C3 at a concrete input: a RESPONDED ticket whose thread has a
fresh inbound message is demoted to PENDING. -/
def ticketRespW : Ticket :=
  { new_ticket "t1" with status := .RESPONDED }

theorem status_reconciliation_spec_witness :
    ((decision_ticket (upsert_decision ctxW [] 5 "t1" [msgOutW, msgInW] true false
      (some ticketRespW))).getD (new_ticket "t1")).status = .PENDING := by
  have h : upsert_decision ctxW [] 5 "t1" [msgOutW, msgInW] true false (some ticketRespW) =
      .ok (some ((decision_ticket (upsert_decision ctxW [] 5 "t1" [msgOutW, msgInW] true false
        (some ticketRespW))).getD (new_ticket "t1"))) := by rfl
  exact (status_reconciliation_spec ctxW [] 5 "t1" [msgOutW, msgInW] true false
    (some ticketRespW) _ h).1 ⟨by decide, by decide⟩

/-- C5 (amended).  Characterization of the reconciler result at the store
level: it raises iff the thread is nonempty and the last message carries a
present, nonempty, unparseable `internalDate`; it returns False (staging
nothing) iff the thread is empty, or the last timestamp parses and either the
parsed sender is blacklisted or no row exists while awaiting-only filtering
applies; in the remaining (non-raising) cases it returns True and stages
exactly one row keyed by the thread id, leaving every other key unchanged.
The original claim had no raising case: see the counterexample. -/
theorem skip_and_upsert_characterization (ctx : Ctx) (bl : List String)
    (now : Int) (tid : String) (msgs : List RemoteMessage) (ao at2 : Bool)
    (tm : TicketMap) :
    (upsert_ticket_from_thread ctx bl now msgs tid ao at2 tm = .error () ↔
      ∃ lm, msgs.getLast? = some lm ∧ last_dt_parse lm = .error ()) ∧
    (upsert_ticket_from_thread ctx bl now msgs tid ao at2 tm = .ok (false, tm) ↔
      (msgs = [] ∨ ∃ lm ld, msgs.getLast? = some lm ∧ last_dt_parse lm = .ok ld ∧
        (blacklisted (from_pe ctx lm).2 bl = true ∨
          (blacklisted (from_pe ctx lm).2 bl = false ∧ tm tid = none ∧ ao = true ∧
            awaiting_reply ctx msgs = false)))) ∧
    (∀ tm2, upsert_ticket_from_thread ctx bl now msgs tid ao at2 tm = .ok (true, tm2) →
      (tm2 tid).isSome = true ∧ ∀ k, k ≠ tid → tm2 k = tm k) := by
  rcases upsert_decision_cases ctx bl now tid msgs ao at2 (tm tid) with
    ⟨h1, hv⟩ | ⟨lm, h1, h2, hv⟩ | ⟨lm, ld, h1, h2, h3, hv⟩ |
    ⟨lm, ld, h1, h2, h3, h4, hv⟩ | ⟨lm, ld, h1, h2, h3, h4, hv⟩
  · have hres : upsert_ticket_from_thread ctx bl now msgs tid ao at2 tm = .ok (false, tm) := by
      simp only [upsert_ticket_from_thread, hv]
    refine ⟨⟨?_, ?_⟩, ⟨?_, ?_⟩, ?_⟩
    · rw [hres]; intro habs; exact absurd habs (by simp)
    · rintro ⟨lm, hlm, -⟩; rw [h1] at hlm; exact absurd hlm (by simp)
    · intro _; exact Or.inl ((getLast?_eq_none_iff msgs).mp h1)
    · intro _; exact hres
    · intro tm2 htrue; rw [hres] at htrue
      exact absurd htrue (by simp)
  · have hres : upsert_ticket_from_thread ctx bl now msgs tid ao at2 tm = .error () := by
      simp only [upsert_ticket_from_thread, hv]
    refine ⟨⟨?_, ?_⟩, ⟨?_, ?_⟩, ?_⟩
    · intro _; exact ⟨lm, h1, h2⟩
    · intro _; exact hres
    · rw [hres]; intro habs; exact absurd habs (by simp)
    · rintro (hnil | ⟨lm2, ld2, hlm2, hld2, -⟩)
      · rw [hnil] at h1; exact absurd h1 (by simp)
      · rw [h1] at hlm2
        obtain rfl : lm = lm2 := Option.some.inj hlm2
        rw [h2] at hld2
        exact absurd hld2 (by simp)
    · intro tm2 htrue; rw [hres] at htrue
      exact absurd htrue (by simp)
  · have hres : upsert_ticket_from_thread ctx bl now msgs tid ao at2 tm = .ok (false, tm) := by
      simp only [upsert_ticket_from_thread, hv]
    refine ⟨⟨?_, ?_⟩, ⟨?_, ?_⟩, ?_⟩
    · rw [hres]; intro habs; exact absurd habs (by simp)
    · rintro ⟨lm2, hlm2, hld2⟩
      rw [h1] at hlm2
      obtain rfl : lm = lm2 := Option.some.inj hlm2
      rw [h2] at hld2
      exact absurd hld2 (by simp)
    · intro _; exact Or.inr ⟨lm, ld, h1, h2, Or.inl h3⟩
    · intro _; exact hres
    · intro tm2 htrue; rw [hres] at htrue
      exact absurd htrue (by simp)
  · have hres : upsert_ticket_from_thread ctx bl now msgs tid ao at2 tm = .ok (false, tm) := by
      simp only [upsert_ticket_from_thread, hv]
    have h4' : tm tid = none ∧ ao = true ∧ awaiting_reply ctx msgs = false := by
      simp only [Bool.and_eq_true, Bool.not_eq_true', Option.isNone_iff_eq_none] at h4
      exact ⟨h4.1.1, h4.1.2, h4.2⟩
    refine ⟨⟨?_, ?_⟩, ⟨?_, ?_⟩, ?_⟩
    · rw [hres]; intro habs; exact absurd habs (by simp)
    · rintro ⟨lm2, hlm2, hld2⟩
      rw [h1] at hlm2
      obtain rfl : lm = lm2 := Option.some.inj hlm2
      rw [h2] at hld2
      exact absurd hld2 (by simp)
    · intro _; exact Or.inr ⟨lm, ld, h1, h2, Or.inr ⟨h3, h4'⟩⟩
    · intro _; exact hres
    · intro tm2 htrue; rw [hres] at htrue
      exact absurd htrue (by simp)
  · have hres : upsert_ticket_from_thread ctx bl now msgs tid ao at2 tm =
        .ok (true, fun k => if k = tid then some (built_ticket ctx now tid msgs at2 lm ld (tm tid)) else tm k) := by
      simp only [upsert_ticket_from_thread, hv]
    refine ⟨⟨?_, ?_⟩, ⟨?_, ?_⟩, ?_⟩
    · rw [hres]; intro habs; exact absurd habs (by simp)
    · rintro ⟨lm2, hlm2, hld2⟩
      rw [h1] at hlm2
      obtain rfl : lm = lm2 := Option.some.inj hlm2
      rw [h2] at hld2
      exact absurd hld2 (by simp)
    · rw [hres]; intro habs
      have := Except.ok.inj habs
      exact absurd (congrArg Prod.fst this) (by simp)
    · rintro (hnil | ⟨lm2, ld2, hlm2, hld2, hside⟩)
      · rw [hnil] at h1; exact absurd h1 (by simp)
      · rw [h1] at hlm2
        obtain rfl : lm = lm2 := Option.some.inj hlm2
        rw [h2] at hld2
        obtain rfl : ld = ld2 := Option.some.inj (by
          have := hld2
          simp only [Except.ok.injEq] at this
          exact congrArg some this)
        rcases hside with hbl2 | ⟨-, htid, hao, haw⟩
        · rw [h3] at hbl2; exact absurd hbl2 (by simp)
        · rw [htid, hao, haw] at h4
          exact absurd h4 (by simp)
    · intro tm2 htrue
      rw [hres] at htrue
      have hpair := Except.ok.inj htrue
      have htm2 : tm2 = fun k =>
          if k = tid then some (built_ticket ctx now tid msgs at2 lm ld (tm tid)) else tm k :=
        (congrArg Prod.snd hpair).symm
      constructor
      · rw [htm2]; simp
      · intro k hk
        rw [htm2]
        simp [hk]

def tmEmptyW : TicketMap := fun _ => none

/-- Witness for C5 at a concrete input: a blacklisted sender is skipped and
the store is unchanged. -/
def msgBadW : RemoteMessage :=
  { id := some "m4"
    headers := [(some "From", some "bad@y.com")]
    labelIds := ["INBOX"]
    internalDate := some "100"
    snippet := none }

theorem skip_and_upsert_characterization_witness :
    upsert_ticket_from_thread ctxW ["bad@y.com"] 0 [msgBadW] "t9" true false tmEmptyW =
      .ok (false, tmEmptyW) :=
  (skip_and_upsert_characterization ctxW ["bad@y.com"] 0 "t9" [msgBadW] true false
    tmEmptyW).2.1.mpr
    (Or.inr ⟨msgBadW, some 100, rfl, rfl, Or.inl (by decide)⟩)

/-- Counterexample for C5 as stated: a nonempty, non-blacklisted thread whose
last message has a present, nonempty but non-numeric `internalDate` makes the
reconciler raise (the `int(...)` at line 286 of `gmail_sync.py` is not inside
a `try`), so it neither returns False under one of the three listed skip
conditions nor returns True with an upsert. -/
theorem skip_and_upsert_counterexample :
    upsert_is_error (upsert_ticket_from_thread ctxW [] 0 [msgNoTsW] "t9" false false tmEmptyW)
      = true ∧
    [msgNoTsW] ≠ [] ∧
    blacklisted (from_pe ctxW msgNoTsW).2 [] = false := by
  refine ⟨by decide, by decide, by decide⟩

/-- C8 (amended).  Due-date maintenance: whenever the reconciler updates a
ticket and the last message carries a parseable timestamp `d`, the stored
`last_message_at` becomes `d` and `due_at` is recomputed as `d` plus the
priority offset (high +0 days, medium +2, low +3, defaulting to medium when
the stored priority is unset, empty or unrecognised); but when the last
message has no timestamp, `last_message_at` becomes `none` while `due_at`
keeps its previous, now stale value — the original claim's invariant fails
there: see the counterexample. -/
theorem due_date_spec (ctx : Ctx) (bl : List String) (now : Int) (tid : String)
    (msgs : List RemoteMessage) (ao at2 : Bool) (t? : Option Ticket) (t2 : Ticket)
    (lm : RemoteMessage) (hlm : msgs.getLast? = some lm)
    (h : upsert_decision ctx bl now tid msgs ao at2 t? = .ok (some t2)) :
    (∀ d, last_dt_parse lm = .ok (some d) →
      t2.last_message_at = some d ∧
      t2.due_at = some (d + msPerDay *
        due_days (default_priority (t?.getD (new_ticket tid)).priority))) ∧
    (last_dt_parse lm = .ok none →
      t2.last_message_at = none ∧ t2.due_at = (t?.getD (new_ticket tid)).due_at) := by
  rcases upsert_decision_cases ctx bl now tid msgs ao at2 t? with
    ⟨h1, hv⟩ | ⟨lm2, h1, h2, hv⟩ | ⟨lm2, ld, h1, h2, h3, hv⟩ |
    ⟨lm2, ld, h1, h2, h3, h4, hv⟩ | ⟨lm2, ld, h1, h2, h3, h4, hv⟩
  · rw [hv] at h; exact absurd h (by simp)
  · rw [hv] at h; exact absurd h (by simp)
  · rw [hv] at h; exact absurd h (by simp)
  · rw [hv] at h; exact absurd h (by simp)
  · rw [hv] at h
    have ht2 := Option.some.inj (Except.ok.inj h)
    rw [hlm] at h1
    obtain rfl : lm = lm2 := Option.some.inj h1
    constructor
    · intro d hd
      rw [h2] at hd
      obtain rfl : ld = some d := Except.ok.inj hd
      obtain ⟨hlma, hdue, -⟩ :=
        apply_ticket_updates_due ctx (awaiting_reply ctx msgs) at2 lm.id
          (subject_of lm) (snippet_of lm) (some d)
          (msgs.any (fun m => decide ("UNREAD" ∈ m.labelIds)))
          (decide ("SENT" ∈ lm.labelIds) || is_from_me ctx (get_header lm.headers "From"))
          (from_pe ctx lm).1 (from_pe ctx lm).2 now (t?.getD (new_ticket tid))
      rw [← ht2, built_ticket]
      exact ⟨hlma, hdue d rfl⟩
    · intro hd
      rw [h2] at hd
      obtain rfl : ld = none := Except.ok.inj hd
      obtain ⟨hlma, -, hdue⟩ :=
        apply_ticket_updates_due ctx (awaiting_reply ctx msgs) at2 lm.id
          (subject_of lm) (snippet_of lm) none
          (msgs.any (fun m => decide ("UNREAD" ∈ m.labelIds)))
          (decide ("SENT" ∈ lm.labelIds) || is_from_me ctx (get_header lm.headers "From"))
          (from_pe ctx lm).1 (from_pe ctx lm).2 now (t?.getD (new_ticket tid))
      rw [← ht2, built_ticket]
      exact ⟨hlma, hdue rfl⟩

/-- Witness for C8 at a concrete input: a fresh ticket for an inbound message
at t=2000 with unset priority gets due = 2000 + 2 days in milliseconds. -/
theorem due_date_spec_witness :
    ((decision_ticket (upsert_decision ctxW [] 7 "w8" [msgInW] false false none)).getD
      (new_ticket "w8")).due_at = some 172802000 := by
  have h : upsert_decision ctxW [] 7 "w8" [msgInW] false false none =
      .ok (some ((decision_ticket (upsert_decision ctxW [] 7 "w8" [msgInW] false false
        none)).getD (new_ticket "w8"))) := by rfl
  have hmain := (due_date_spec ctxW [] 7 "w8" [msgInW] false false none _ msgInW rfl h).1
    2000 rfl
  rw [hmain.2]
  decide

/-- Counterexample for C8 as stated: an existing ticket with `due_at = 5`
reconciled against a thread whose last message has no `internalDate` keeps
`due_at = 5` while `last_message_at` becomes `none` — a present due timestamp
that does not equal any last-message timestamp plus an offset. -/
def ticketDueW : Ticket :=
  { new_ticket "t1" with due_at := some 5, last_message_at := some 0 }

def msgNoDateW : RemoteMessage :=
  { id := some "m5"
    headers := [(some "From", some "carol@y.com")]
    labelIds := ["INBOX"]
    internalDate := none
    snippet := none }

theorem due_date_counterexample :
    ((decision_ticket (upsert_decision ctxW [] 9 "t1" [msgNoDateW] true false
        (some ticketDueW))).map Ticket.due_at) = some (some 5) ∧
    ((decision_ticket (upsert_decision ctxW [] 9 "t1" [msgNoDateW] true false
        (some ticketDueW))).map Ticket.last_message_at) = some none := by
  refine ⟨by decide, by decide⟩

-- ## The sync orchestrator

/-- Local database state touched by the orchestrator: the Ticket store keyed
by thread id, the AppState key/value store (`state.get_state` /
`state.set_state`) holding the watermark, and the read-only blacklist. -/
structure Db where
  tickets : TicketMap
  app_state : String → Option String
  blacklist : List String

/-- `state.get_state`. -/
def get_state (st : String → Option String) (key : String) : Option String :=
  st key

/-- `state.set_state`: insert-or-update, last write wins. -/
def set_state (st : String → Option String) (key value : String) :
    String → Option String :=
  fun k => if k = key then some value else st k

/-- Result of `service.users().threads().get(...)` for one thread id:
the message list, an `HttpError` (caught by the per-thread loop and counted
as skipped), or any other exception (fatal: it propagates out of the run). -/
inductive ThreadFetch where
  | ok (msgs : List RemoteMessage)
  | httpErr
  | fatal

/-- Result of `_thread_ids_from_history`: the changed thread ids, a 404
`HttpError` (`startHistoryId` too old, triggering the 30-day fallback), or a
non-404 `HttpError` (re-raised by line 423). -/
inductive HistoryRes where
  | ok (tids : List String)
  | expired
  | failed

/-- The remote mailbox: `gateway_error` models `get_gmail_service` raising
`RuntimeError` (mailbox not connected / credentials missing); `history_id`
is the raw `historyId` of `getProfile`; `history` models
`_thread_ids_from_history`; `listQ q includeAnywhere` is the full ordered
candidate sequence that `threads().list` pages through for search query `q`
(restricted to the INBOX label when `includeAnywhere` is false) — each page
request returns the next `maxResults` of the remainder and a page token
while more remain; `thread` models `threads().get`. -/
structure Remote where
  gateway_error : Option String
  history_id : Option String
  history : String → HistoryRes
  listQ : Option String → Bool → List String
  thread : String → ThreadFetch

/-- `str(profile.get("historyId") or "").strip() or None`. -/
def norm_history_id (remote : Remote) : Option String :=
  match remote.history_id with
  | none => none
  | some s => if py_strip s = "" then none else some (py_strip s)

/-- Python truthiness of an optional string (`not start`). -/
def opt_falsy (s : Option String) : Bool :=
  match s with
  | none => true
  | some v => v = ""

/-- `_yyyymmdd_to_gmail`. -/
def yyyymmdd_to_gmail (d : String) : String :=
  py_dash_to_slash d

/-- The Gmail search string built by `_list_thread_ids_in_range` from the
optional date range and the archived-mail flag. -/
def build_query (ctx : Ctx) (startD endD : Option String) (include_anywhere : Bool) :
    Option String :=
  let parts : List String :=
    (if include_anywhere then ["in:anywhere"] else []) ++
    (match startD with
      | some s => if s ≠ "" then ["after:" ++ yyyymmdd_to_gmail s] else []
      | none => []) ++
    (match endD with
      | some e => if e ≠ "" then ["before:" ++ yyyymmdd_to_gmail (ctx.increment_day e)] else []
      | none => [])
  if parts.isEmpty then none else some (String.intercalate " " parts)

/-- The inner `for t in resp.get("threads", [])` loop of
`_list_thread_ids_in_range` over one page: append each truthy id, and after
every item (appended or not) stop with `hit_limit = True` once the collected
count reaches `max_threads`.  Missing/falsy thread ids are modelled as `""`. -/
def page_loop (max_threads : Nat) : List String → List String → List String × Bool
  | [], acc => (acc, false)
  | t :: rest, acc =>
    let acc2 := if t ≠ "" then acc ++ [t] else acc
    if max_threads ≤ acc2.length then (acc2, true)
    else page_loop max_threads rest acc2

/-- The paging `while True` loop of `_list_thread_ids_in_range`.  `cands` is
the remainder of the provider's candidate sequence; each iteration requests
`min 500 (max_threads - len(acc))` results (stopping with `hit_limit = True`
when that is no longer positive), processes the returned page, and continues
while the provider reports a next-page token (i.e. while candidates remain).
The `fuel` parameter bounds the iteration count for structural recursion;
`list_thread_ids_in_range` supplies `cands.length + 1`, which the spec lemma
shows is always sufficient. -/
def list_loop (max_threads : Nat) : Nat → List String → List String →
    List String × Bool
  | 0, _, acc => (acc, false)
  | fuel + 1, cands, acc =>
    let mr := min 500 (max_threads - acc.length)
    if mr = 0 then (acc, true)
    else
      let page := cands.take mr
      let rest := cands.drop mr
      let res := page_loop max_threads page acc
      if res.2 then (res.1, true)
      else if rest.isEmpty then (res.1, false)
      else list_loop max_threads fuel rest res.1

/-- `_list_thread_ids_in_range`: build the query, obtain the candidate
sequence from the provider, and page through it up to `max_threads`. -/
def list_thread_ids_in_range (ctx : Ctx) (remote : Remote)
    (startD endD : Option String) (max_threads : Nat) (include_anywhere : Bool) :
    List String × Bool :=
  let cands := remote.listQ (build_query ctx startD endD include_anywhere) include_anywhere
  list_loop max_threads (cands.length + 1) cands []

/-- The truncation applied to history-mode candidate ids (lines 409-412):
strictly more than `max_threads` ids are truncated and flag the cap. -/
def trunc_history (tids : List String) (max_threads : Nat) : List String × Bool :=
  if tids.length > max_threads then (tids.take max_threads, true) else (tids, false)

/-- The per-thread loop of `sync_inbox_threads` (lines 429-440): sequentially
reconcile each candidate id, counting upserts and skips; an `HttpError` from
the fetch is caught and counted as skipped; any other exception (fetch
`fatal`, or the uncaught parse error inside the reconciler) aborts the loop
(`none`). -/
def run_loop (ctx : Ctx) (remote : Remote) (bl : List String) (now : Int)
    (ao at2 : Bool) : List String → Nat → Nat → TicketMap →
    Option (Nat × Nat × TicketMap)
  | [], up, sk, tm => some (up, sk, tm)
  | tid :: rest, up, sk, tm =>
    match remote.thread tid with
    | .httpErr => run_loop ctx remote bl now ao at2 rest up (sk + 1) tm
    | .fatal => none
    | .ok msgs =>
      match upsert_ticket_from_thread ctx bl now msgs tid ao at2 tm with
      | .error _ => none
      | .ok (true, tm2) => run_loop ctx remote bl now ao at2 rest (up + 1) sk tm2
      | .ok (false, tm2) => run_loop ctx remote bl now ao at2 rest up (sk + 1) tm2

/-- The flags of `sync_inbox_threads` (`end` is `endDate`). -/
structure SyncFlags where
  max_threads : Nat
  startDate : Option String
  endDate : Option String
  incremental : Bool
  include_anywhere : Bool
  awaiting_only : Bool
  auto_triage : Bool

/-- The success dictionary returned by `sync_inbox_threads`. -/
structure RunSummary where
  ok : Bool
  threads_requested : Nat
  upserted : Nat
  skipped : Nat
  mode : String
  watermark : Option String
  hit_limit : Bool
  target_mailbox : String
  include_anywhere : Bool
  awaiting_only : Bool
  auto_triage : Bool
deriving DecidableEq, Inhabited

/-- The two structured returns of `sync_inbox_threads`: the non-fatal
`{"ok": False, "error": msg}` on gateway `RuntimeError`, or the full success
summary. -/
inductive SyncResult where
  | authFail (msg : String)
  | summary (s : RunSummary)

/-- Outcome of one run against a database: either a structured return with
the committed database, or a fatal exception — in which case the session is
closed without commit, so the persistent state is the original `db`. -/
inductive SyncOutcome where
  | fatal (db : Db)
  | ret (r : SyncResult) (db : Db)

/-- Thread-id selection plus the `used_history`/`hit_limit` bookkeeping of
`sync_inbox_threads` (lines 396-427); `none` models the re-raised non-404
`HttpError` of line 423. -/
def select_thread_ids (ctx : Ctx) (remote : Remote) (flags : SyncFlags)
    (db : Db) (current_history_id : Option String) :
    Option (List String × Bool × Bool) :=
  if !(opt_falsy flags.startDate) || !(opt_falsy flags.endDate) then
    let r := list_thread_ids_in_range ctx remote flags.startDate flags.endDate
      flags.max_threads flags.include_anywhere
    some (r.1, false, r.2)
  else
    let last_history_id := get_state db.app_state "gmail_history_id"
    if flags.incremental && !(opt_falsy last_history_id) && current_history_id.isSome then
      match remote.history (last_history_id.getD "") with
      | .ok tids =>
        let r := trunc_history tids flags.max_threads
        some (r.1, true, r.2)
      | .expired =>
        let r := list_thread_ids_in_range ctx remote (some ctx.recent_start) none
          flags.max_threads false
        some (r.1, false, r.2)
      | .failed => none
    else
      let r := list_thread_ids_in_range ctx remote (some ctx.recent_start) none
        flags.max_threads false
      some (r.1, false, r.2)

/-- `sync_inbox_threads`: gateway construction (RuntimeError becomes a
non-fatal failure return), watermark read at the start, thread-id selection,
the per-thread loop, the conditional watermark advance, and the single
commit.  A fatal error anywhere after the gateway leaves the database at its
original value (the session is rolled back uncommitted). -/
def sync_inbox_threads (ctx : Ctx) (remote : Remote) (now : Int)
    (flags : SyncFlags) (db : Db) : SyncOutcome :=
  match remote.gateway_error with
  | some msg => .ret (.authFail msg) db
  | none =>
    let current_history_id := norm_history_id remote
    match select_thread_ids ctx remote flags db current_history_id with
    | none => .fatal db
    | some (tids, used_history, hit_limit) =>
      match run_loop ctx remote db.blacklist now flags.awaiting_only
          flags.auto_triage tids 0 0 db.tickets with
      | none => .fatal db
      | some (up, sk, tm2) =>
        let st2 :=
          if opt_falsy flags.startDate && opt_falsy flags.endDate then
            match current_history_id with
            | some v => set_state db.app_state "gmail_history_id" v
            | none => db.app_state
          else db.app_state
        .ret (.summary
          { ok := true
            threads_requested := tids.length
            upserted := up
            skipped := sk
            mode := if used_history then "history"
              else if !(opt_falsy flags.startDate) || !(opt_falsy flags.endDate) then "range"
              else "recent"
            watermark := current_history_id
            hit_limit := hit_limit
            target_mailbox := ctx.target_mailbox
            include_anywhere := flags.include_anywhere
            awaiting_only := flags.awaiting_only
            auto_triage := flags.auto_triage })
          { db with tickets := tm2, app_state := st2 }

/-- Projection: the database after a run. -/
def sync_db : SyncOutcome → Db
  | .fatal d => d
  | .ret _ d => d

/-- Projection: did the run abort with a fatal exception. -/
def sync_is_fatal : SyncOutcome → Bool
  | .fatal _ => true
  | .ret _ _ => false

/-- Projection: the success summary, if the run returned one. -/
def sync_summary : SyncOutcome → Option RunSummary
  | .ret (.summary s) _ => some s
  | _ => none

/-- Projection: the structured auth failure message, if any. -/
def sync_auth_error : SyncOutcome → Option String
  | .ret (.authFail m) _ => some m
  | _ => none

/-- C9.  When the gateway cannot be constructed (`get_gmail_service` raises
`RuntimeError`: mailbox not connected or credentials missing), the
orchestrator returns the structured non-fatal failure `{"ok": False,
"error": msg}` — no exception escapes — and the database (tickets, watermark)
is exactly the one passed in: nothing was staged or committed. -/
theorem auth_failure_spec (ctx : Ctx) (remote : Remote) (now : Int)
    (flags : SyncFlags) (db : Db) (msg : String)
    (h : remote.gateway_error = some msg) :
    sync_inbox_threads ctx remote now flags db = .ret (.authFail msg) db := by
  simp only [sync_inbox_threads, h]

def dbW : Db :=
  { tickets := fun _ => none
    app_state := fun _ => none
    blacklist := [] }

def flagsW : SyncFlags :=
  { max_threads := 5
    startDate := none
    endDate := none
    incremental := true
    include_anywhere := false
    awaiting_only := true
    auto_triage := false }

def remoteAuthW : Remote :=
  { gateway_error := some "Google is not connected. Visit /auth/google/login first."
    history_id := none
    history := fun _ => .ok []
    listQ := fun _ _ => []
    thread := fun _ => .ok [] }

/-- Witness for C9 at a concrete input. -/
theorem auth_failure_spec_witness :
    sync_inbox_threads ctxW remoteAuthW 0 flagsW dbW =
      .ret (.authFail "Google is not connected. Visit /auth/google/login first.") dbW :=
  auth_failure_spec ctxW remoteAuthW 0 flagsW dbW _ rfl

/-- C4.  Watermark discipline of `sync_inbox_threads`: a fatal run leaves the
whole database — in particular the stored watermark — at its pre-run value
(nothing was committed); a successful summary-returning run stores, under the
`gmail_history_id` key, the marker fetched at the start of the run (before
any listing) exactly when no explicit start or end date was supplied and that
marker was present, and leaves the key unchanged otherwise; and no other
AppState key is ever written. -/
theorem watermark_advance_spec (ctx : Ctx) (remote : Remote) (now : Int)
    (flags : SyncFlags) (db : Db) :
    (sync_is_fatal (sync_inbox_threads ctx remote now flags db) = true →
      sync_db (sync_inbox_threads ctx remote now flags db) = db) ∧
    (∀ s, sync_summary (sync_inbox_threads ctx remote now flags db) = some s →
      (sync_db (sync_inbox_threads ctx remote now flags db)).app_state "gmail_history_id" =
        (if opt_falsy flags.startDate && opt_falsy flags.endDate then
          match norm_history_id remote with
          | some v => some v
          | none => db.app_state "gmail_history_id"
        else db.app_state "gmail_history_id")) ∧
    (∀ k, k ≠ "gmail_history_id" →
      (sync_db (sync_inbox_threads ctx remote now flags db)).app_state k =
        db.app_state k) := by
  cases hg : remote.gateway_error with
  | some msg =>
    have heq : sync_inbox_threads ctx remote now flags db = .ret (.authFail msg) db := by
      simp only [sync_inbox_threads, hg]
    rw [heq]
    refine ⟨?_, ?_, ?_⟩
    · intro habs; exact absurd habs (by simp [sync_is_fatal])
    · intro s habs; exact absurd habs (by simp [sync_summary])
    · intro k _; rfl
  | none =>
    cases hsel : select_thread_ids ctx remote flags db (norm_history_id remote) with
    | none =>
      have heq : sync_inbox_threads ctx remote now flags db = .fatal db := by
        simp only [sync_inbox_threads, hg, hsel]
      rw [heq]
      refine ⟨?_, ?_, ?_⟩
      · intro _; rfl
      · intro s habs; exact absurd habs (by simp [sync_summary])
      · intro k _; rfl
    | some trip =>
      obtain ⟨tids, uh, hl⟩ := trip
      cases hloop : run_loop ctx remote db.blacklist now flags.awaiting_only
          flags.auto_triage tids 0 0 db.tickets with
      | none =>
        have heq : sync_inbox_threads ctx remote now flags db = .fatal db := by
          simp only [sync_inbox_threads, hg, hsel, hloop]
        rw [heq]
        refine ⟨?_, ?_, ?_⟩
        · intro _; rfl
        · intro s habs; exact absurd habs (by simp [sync_summary])
        · intro k _; rfl
      | some triple =>
        obtain ⟨up, sk, tm2⟩ := triple
        have heq : sync_inbox_threads ctx remote now flags db =
            .ret (.summary
              { ok := true
                threads_requested := tids.length
                upserted := up
                skipped := sk
                mode := if uh then "history"
                  else if !(opt_falsy flags.startDate) || !(opt_falsy flags.endDate) then "range"
                  else "recent"
                watermark := norm_history_id remote
                hit_limit := hl
                target_mailbox := ctx.target_mailbox
                include_anywhere := flags.include_anywhere
                awaiting_only := flags.awaiting_only
                auto_triage := flags.auto_triage })
              { db with
                tickets := tm2
                app_state :=
                  if opt_falsy flags.startDate && opt_falsy flags.endDate then
                    match norm_history_id remote with
                    | some v => set_state db.app_state "gmail_history_id" v
                    | none => db.app_state
                  else db.app_state } := by
          simp only [sync_inbox_threads, hg, hsel, hloop]
        rw [heq]
        refine ⟨?_, ?_, ?_⟩
        · intro habs; exact absurd habs (by simp [sync_is_fatal])
        · intro s _
          cases hc : (opt_falsy flags.startDate && opt_falsy flags.endDate) with
          | true =>
            cases hnh : norm_history_id remote with
            | some v => simp [sync_db, set_state]
            | none => simp [sync_db]
          | false => simp [sync_db]
        · intro k hk
          cases hc : (opt_falsy flags.startDate && opt_falsy flags.endDate) with
          | true =>
            cases hnh : norm_history_id remote with
            | some v => simp [sync_db, set_state, hk]
            | none => simp [sync_db]
          | false => simp [sync_db]

/-- Witness for C4 at a concrete input: an incremental run with a stored
watermark "old" and current marker " 42 " advances the key to "42". -/
def dbWmW : Db :=
  { tickets := fun _ => none
    app_state := fun k => if k = "gmail_history_id" then some "old" else none
    blacklist := [] }

def remoteWmW : Remote :=
  { gateway_error := none
    history_id := some " 42 "
    history := fun _ => .ok []
    listQ := fun _ _ => []
    thread := fun _ => .ok [] }

theorem watermark_advance_spec_witness :
    (sync_db (sync_inbox_threads ctxW remoteWmW 0 flagsW dbWmW)).app_state
      "gmail_history_id" = some "42" := by
  have h := (watermark_advance_spec ctxW remoteWmW 0 flagsW dbWmW).2.1
    ((sync_summary (sync_inbox_threads ctxW remoteWmW 0 flagsW dbWmW)).getD default)
    (by decide)
  rw [h]
  decide

theorem page_loop_spec (max_threads : Nat) (page : List String) :
    ∀ acc : List String, acc.length < max_threads →
      page_loop max_threads page acc =
        ((acc ++ page.filter (fun s => s ≠ "")).take max_threads,
         decide (max_threads ≤ acc.length + (page.filter (fun s => s ≠ "")).length)) := by
  induction page with
  | nil =>
    intro acc hacc
    simp only [page_loop, List.filter_nil, List.append_nil, List.length_nil, Nat.add_zero]
    rw [List.take_of_length_le (by omega), decide_eq_false (by omega)]
  | cons t rest ih =>
    intro acc hacc
    simp only [page_loop]
    by_cases ht : t = ""
    · rw [if_neg (not_not_intro ht), if_neg (by omega)]
      rw [ih acc hacc]
      have hf : (t :: rest).filter (fun s => s ≠ "") = rest.filter (fun s => s ≠ "") := by
        simp [List.filter_cons, ht]
      rw [hf]
    · rw [if_pos ht]
      have hf : (t :: rest).filter (fun s => s ≠ "") = t :: rest.filter (fun s => s ≠ "") := by
        simp [List.filter_cons, ht]
      rw [hf]
      have hlen : (acc ++ [t]).length = acc.length + 1 := by simp
      by_cases hfull : max_threads ≤ acc.length + 1
      · rw [if_pos (by rw [hlen]; omega)]
        have hmax : max_threads = acc.length + 1 := by omega
        have htake : (acc ++ t :: rest.filter (fun s => s ≠ "")).take max_threads =
            acc ++ [t] := by
          rw [hmax, List.take_append 1]
          rfl
        rw [htake, decide_eq_true (by simp only [List.length_cons]; omega)]
      · rw [if_neg (by rw [hlen]; omega)]
        rw [ih (acc ++ [t]) (by rw [hlen]; omega)]
        simp only [Prod.mk.injEq]
        refine ⟨?_, ?_⟩
        · rw [List.append_assoc]
          rfl
        · rw [decide_eq_decide]
          simp only [hlen, List.length_cons]
          omega

theorem isEmpty_true_iff {α : Type} (l : List α) : l.isEmpty = true ↔ l = [] := by
  cases l <;> simp [List.isEmpty]

theorem list_loop_spec (max_threads : Nat) :
    ∀ (fuel : Nat) (cands acc : List String),
      cands.length < fuel → acc.length ≤ max_threads →
      list_loop max_threads fuel cands acc =
        ((acc ++ cands.filter (fun s => s ≠ "")).take max_threads,
         decide (max_threads ≤ acc.length + (cands.filter (fun s => s ≠ "")).length)) := by
  intro fuel
  induction fuel with
  | zero => intro cands acc hf _; exact absurd hf (by omega)
  | succ fuel ih =>
    intro cands acc hf hacc
    simp only [list_loop]
    by_cases hmr : min 500 (max_threads - acc.length) = 0
    · rw [if_pos hmr]
      have hacc2 : acc.length = max_threads := by omega
      have htake : (acc ++ cands.filter (fun s => s ≠ "")).take max_threads = acc := by
        rw [← hacc2]
        exact List.take_left acc _
      rw [htake, decide_eq_true (by omega)]
    · rw [if_neg hmr]
      have hacclt : acc.length < max_threads := by omega
      rw [page_loop_spec max_threads (cands.take (min 500 (max_threads - acc.length)))
        acc hacclt]
      have hsplit : cands.filter (fun s => s ≠ "") =
          (cands.take (min 500 (max_threads - acc.length))).filter (fun s => s ≠ "") ++
          (cands.drop (min 500 (max_threads - acc.length))).filter (fun s => s ≠ "") := by
        rw [← List.filter_append, List.take_append_drop]
      by_cases hhit : max_threads ≤ acc.length +
          ((cands.take (min 500 (max_threads - acc.length))).filter (fun s => s ≠ "")).length
      · rw [decide_eq_true hhit, if_pos rfl]
        have hlen2 : max_threads ≤
            (acc ++ (cands.take (min 500 (max_threads - acc.length))).filter
              (fun s => s ≠ "")).length := by
          simp only [List.length_append]; omega
        have h1 : (acc ++ cands.filter (fun s => s ≠ "")).take max_threads =
            (acc ++ (cands.take (min 500 (max_threads - acc.length))).filter
              (fun s => s ≠ "")).take max_threads := by
          conv_lhs => rw [hsplit, ← List.append_assoc]
          exact List.take_append_of_le_length hlen2
        have h2 : decide (max_threads ≤ acc.length +
            (cands.filter (fun s => s ≠ "")).length) = true :=
          decide_eq_true (by rw [hsplit]; simp only [List.length_append]; omega)
        rw [h1, h2]
      · rw [decide_eq_false hhit, if_neg (by exact Bool.false_ne_true)]
        by_cases hrest : (cands.drop (min 500 (max_threads - acc.length))).isEmpty = true
        · rw [if_pos hrest]
          have hdnil : cands.drop (min 500 (max_threads - acc.length)) = [] :=
            (isEmpty_true_iff _).mp hrest
          rw [hsplit, hdnil]
          simp only [List.filter_nil, List.append_nil]
          rw [decide_eq_false hhit]
        · rw [if_neg hrest]
          have hdne : cands.drop (min 500 (max_threads - acc.length)) ≠ [] := by
            intro hnil
            exact hrest ((isEmpty_true_iff _).mpr hnil)
          have hmrlt : min 500 (max_threads - acc.length) < cands.length := by
            by_contra hc
            exact hdne (List.drop_eq_nil_iff.mpr (by omega))
          have hProj : ((acc ++ (cands.take (min 500 (max_threads - acc.length))).filter
              (fun s => s ≠ "")).take max_threads,
                false).1 =
              acc ++ (cands.take (min 500 (max_threads - acc.length))).filter
                (fun s => s ≠ "") := by
            show (acc ++ (cands.take (min 500 (max_threads - acc.length))).filter
              (fun s => s ≠ "")).take max_threads = _
            exact List.take_of_length_le (by simp only [List.length_append]; omega)
          rw [hProj]
          rw [ih (cands.drop (min 500 (max_threads - acc.length)))
            (acc ++ (cands.take (min 500 (max_threads - acc.length))).filter
              (fun s => s ≠ ""))
            (by rw [List.length_drop]; omega)
            (by simp only [List.length_append]; omega)]
          simp only [Prod.mk.injEq]
          refine ⟨?_, ?_⟩
          · conv_rhs => rw [hsplit, ← List.append_assoc]
          · rw [decide_eq_decide]
            rw [hsplit]
            simp only [List.length_append]
            omega

/-- C6 (amended).  Cap enforcement: range-mode listing returns the first
`max_threads` (nonempty) candidate ids and flags `hit_limit` exactly when the
candidate count is greater than OR EQUAL to `max_threads` — at equality the
inner loop reaches the cap on the final id and still sets the flag, so "would
exceed" in the original claim is wrong at equality (see the counterexample);
history-mode truncation flags the cap only on strict excess; at most
`max_threads` ids are ever processed; and a range-mode run's summary reports
exactly the listing's `hit_limit` and candidate count. -/
theorem cap_enforcement_spec (ctx : Ctx) (remote : Remote)
    (startD endD : Option String) (max_threads : Nat) (ia : Bool)
    (tids : List String) (now : Int) (flags : SyncFlags) (db : Db) :
    (list_thread_ids_in_range ctx remote startD endD max_threads ia =
      (((remote.listQ (build_query ctx startD endD ia) ia).filter
          (fun s => s ≠ "")).take max_threads,
       decide (max_threads ≤
         ((remote.listQ (build_query ctx startD endD ia) ia).filter
           (fun s => s ≠ "")).length))) ∧
    ((list_thread_ids_in_range ctx remote startD endD max_threads ia).1.length ≤
      max_threads) ∧
    (trunc_history tids max_threads =
      if tids.length > max_threads then (tids.take max_threads, true)
      else (tids, false)) ∧
    (∀ s, (!(opt_falsy flags.startDate) || !(opt_falsy flags.endDate)) = true →
      sync_summary (sync_inbox_threads ctx remote now flags db) = some s →
      s.hit_limit = (list_thread_ids_in_range ctx remote flags.startDate
        flags.endDate flags.max_threads flags.include_anywhere).2 ∧
      s.threads_requested = (list_thread_ids_in_range ctx remote flags.startDate
        flags.endDate flags.max_threads flags.include_anywhere).1.length) := by
  have h1 : list_thread_ids_in_range ctx remote startD endD max_threads ia =
      (((remote.listQ (build_query ctx startD endD ia) ia).filter
          (fun s => s ≠ "")).take max_threads,
       decide (max_threads ≤
         ((remote.listQ (build_query ctx startD endD ia) ia).filter
           (fun s => s ≠ "")).length)) := by
    rw [list_thread_ids_in_range,
      list_loop_spec max_threads _ _ [] (by omega) (by simp)]
    simp only [List.nil_append, List.length_nil, Nat.zero_add]
  refine ⟨h1, ?_, rfl, ?_⟩
  · rw [h1]
    simp only [List.length_take]
    omega
  · intro s hrange hsum
    cases hg : remote.gateway_error with
    | some msg =>
      rw [show sync_inbox_threads ctx remote now flags db = .ret (.authFail msg) db from by
        simp only [sync_inbox_threads, hg]] at hsum
      exact absurd hsum (by simp [sync_summary])
    | none =>
      have hsel : select_thread_ids ctx remote flags db (norm_history_id remote) =
          some ((list_thread_ids_in_range ctx remote flags.startDate flags.endDate
            flags.max_threads flags.include_anywhere).1, false,
            (list_thread_ids_in_range ctx remote flags.startDate flags.endDate
            flags.max_threads flags.include_anywhere).2) := by
        simp only [select_thread_ids]
        rw [if_pos hrange]
      cases hloop : run_loop ctx remote db.blacklist now flags.awaiting_only
          flags.auto_triage (list_thread_ids_in_range ctx remote flags.startDate
            flags.endDate flags.max_threads flags.include_anywhere).1 0 0 db.tickets with
      | none =>
        rw [show sync_inbox_threads ctx remote now flags db = .fatal db from by
          simp only [sync_inbox_threads, hg, hsel, hloop]] at hsum
        exact absurd hsum (by simp [sync_summary])
      | some triple =>
        obtain ⟨up, sk, tm2⟩ := triple
        rw [show sync_inbox_threads ctx remote now flags db =
            .ret (.summary
              { ok := true
                threads_requested := (list_thread_ids_in_range ctx remote flags.startDate
                  flags.endDate flags.max_threads flags.include_anywhere).1.length
                upserted := up
                skipped := sk
                mode := if false then "history"
                  else if !(opt_falsy flags.startDate) || !(opt_falsy flags.endDate) then "range"
                  else "recent"
                watermark := norm_history_id remote
                hit_limit := (list_thread_ids_in_range ctx remote flags.startDate
                  flags.endDate flags.max_threads flags.include_anywhere).2
                target_mailbox := ctx.target_mailbox
                include_anywhere := flags.include_anywhere
                awaiting_only := flags.awaiting_only
                auto_triage := flags.auto_triage })
              { db with
                tickets := tm2
                app_state :=
                  if opt_falsy flags.startDate && opt_falsy flags.endDate then
                    match norm_history_id remote with
                    | some v => set_state db.app_state "gmail_history_id" v
                    | none => db.app_state
                  else db.app_state } from by
          simp only [sync_inbox_threads, hg, hsel, hloop]] at hsum
        simp only [sync_summary, Option.some.injEq] at hsum
        rw [← hsum]
        exact ⟨rfl, rfl⟩

def cands5W : List String := ["a", "b", "c", "d", "e"]

def remote5W : Remote :=
  { gateway_error := none
    history_id := some "7"
    history := fun _ => .ok []
    listQ := fun _ _ => cands5W
    thread := fun _ => .ok [] }

def flagsRangeW : SyncFlags :=
  { max_threads := 5
    startDate := some "2024-01-01"
    endDate := none
    incremental := true
    include_anywhere := false
    awaiting_only := true
    auto_triage := false }

/-- Counterexample for C6 as stated: a range-mode run over exactly five
candidate threads with `maxThreads = 5` reports `hit_limit = true` although
the candidate count does not exceed `maxThreads`. -/
theorem cap_enforcement_counterexample :
    (sync_summary (sync_inbox_threads ctxW remote5W 0 flagsRangeW dbW)).map
      (fun s => s.hit_limit) = some true ∧
    (remote5W.listQ (build_query ctxW (some "2024-01-01") none false) false).length = 5 ∧
    ¬(5 > 5) :=
  ⟨by decide, by decide, by decide⟩

def cands8W : List String := ["a", "b", "c", "d", "e", "f", "g", "h"]

def remote8W : Remote :=
  { gateway_error := none
    history_id := some "7"
    history := fun _ => .ok []
    listQ := fun _ _ => cands8W
    thread := fun _ => .ok [] }

/-- Witness for C6 at the claim's own scenario: `maxThreads = 5` with 8 range
candidates processes exactly 5 and flags the cap. -/
theorem cap_enforcement_spec_witness :
    list_thread_ids_in_range ctxW remote8W (some "2024-01-01") none 5 false =
      (["a", "b", "c", "d", "e"], true) := by
  have h := (cap_enforcement_spec ctxW remote8W (some "2024-01-01") none 5 false
    [] 0 flagsRangeW dbW).1
  exact h.trans (by decide)

-- ## Idempotence of re-reconciliation (C7)

/-- The ticket with its `updated_at` bookkeeping column cleared; two tickets
equal under this projection differ at most in `updated_at`. -/
def strip_updated (t : Ticket) : Ticket :=
  { t with updated_at := none }

/-- Overwrite only the `updated_at` column. -/
def set_updated (now : Int) (t : Ticket) : Ticket :=
  { t with updated_at := some now }

/-- The decision taken by the AI block as a function of the cached hash: the
triage result and the new hash when it runs and succeeds, `none` when it is
disabled, the thread is not awaiting, the body fetch or the triage call
raises, or the hash matches the cache. -/
def ai_outcome_body (ctx : Ctx) (subject snippet : String) (hash0 : Option String)
    (last_body : String) : Option (TriageRes × String) :=
  if hash0 = some (ctx.content_hash subject snippet (last_body.take 4000)) then none
  else
    match ctx.triage_email subject snippet (last_body.take 4000) with
    | none => none
    | some tri => some (tri, ctx.content_hash subject snippet (last_body.take 4000))

def ai_outcome (ctx : Ctx) (auto_triage aw : Bool) (last_msg_id : Option String)
    (subject snippet : String) (hash0 : Option String) : Option (TriageRes × String) :=
  if auto_triage && aw then
    match ai_body ctx last_msg_id with
    | none => none
    | some last_body => ai_outcome_body ctx subject snippet hash0 last_body
  else none

/-- The normal form of `apply_ticket_updates`: the whole update, written as a
single record whose fields are functions of the inputs and of the previous
ticket's non-`updated_at` columns. -/
def apply_explicit (ctx : Ctx) (aw auto_triage : Bool) (last_msg_id : Option String)
    (subject snippet : String) (last_dt : Option Int) (is_unread last_from_me : Bool)
    (from_name from_email : Option String) (now : Int) (t0 : Ticket) : Ticket :=
  match ai_outcome ctx auto_triage aw last_msg_id subject snippet t0.ai_source_hash with
  | none =>
    { thread_id := t0.thread_id
      last_message_id := last_msg_id
      subject := some subject
      snippet := some snippet
      from_name := from_name
      from_email := from_email
      last_message_at := last_dt
      last_from_me := last_from_me
      is_unread := is_unread
      is_not_replied := aw
      priority := default_priority t0.priority
      due_at :=
        match last_dt with
        | some d => some (d + msPerDay * due_days (default_priority t0.priority))
        | none => t0.due_at
      status := reconcile_status aw t0.status
      category := t0.category
      ai_category := t0.ai_category
      ai_urgency := t0.ai_urgency
      ai_confidence := t0.ai_confidence
      ai_reasons := t0.ai_reasons
      ai_summary := t0.ai_summary
      ai_source_hash := t0.ai_source_hash
      ai_last_scored_at := t0.ai_last_scored_at
      updated_at := some now }
  | some (tri, h) =>
    { thread_id := t0.thread_id
      last_message_id := last_msg_id
      subject := some subject
      snippet := some snippet
      from_name := from_name
      from_email := from_email
      last_message_at := last_dt
      last_from_me := last_from_me
      is_unread := is_unread
      is_not_replied := aw
      priority := default_priority t0.priority
      due_at :=
        match last_dt with
        | some d => some (d + msPerDay * due_days (default_priority t0.priority))
        | none => t0.due_at
      status := reconcile_status aw t0.status
      category := some tri.ticket_category
      ai_category := some tri.ai_category
      ai_urgency := none
      ai_confidence := none
      ai_reasons := some (String.intercalate "\n" tri.reasons)
      ai_summary := some tri.summary
      ai_source_hash := some h
      ai_last_scored_at := some now
      updated_at := some now }

theorem apply_ticket_updates_eq_explicit (ctx : Ctx) (aw at2 : Bool)
    (lmid : Option String) (subj snip : String) (ld : Option Int)
    (unread lfm : Bool) (fn fe : Option String) (now : Int) (t0 : Ticket) :
    apply_ticket_updates ctx aw at2 lmid subj snip ld unread lfm fn fe now t0 =
      apply_explicit ctx aw at2 lmid subj snip ld unread lfm fn fe now t0 := by
  cases ld with
  | none =>
    simp only [apply_ticket_updates, apply_explicit, ai_step, ai_outcome, ai_outcome_body]
    split
    · split
      · rfl
      · split
        · rfl
        · split
          · rfl
          · rfl
    · rfl
  | some d =>
    simp only [apply_ticket_updates, apply_explicit, ai_step, ai_outcome, ai_outcome_body]
    split
    · split
      · rfl
      · split
        · rfl
        · split
          · rfl
          · rfl
    · rfl

theorem default_priority_idem (p : Option String) :
    default_priority (default_priority p) = default_priority p := by
  match p with
  | none => rfl
  | some s =>
    by_cases h : s = ""
    · subst h; rfl
    · have h1 : default_priority (some s) = some s := by
        simp only [default_priority]
        rw [if_neg h]
      rw [h1, h1]

theorem reconcile_status_idem (aw : Bool) (s : TicketStatus) :
    reconcile_status aw (reconcile_status aw s) = reconcile_status aw s := by
  cases aw <;> cases s <;> rfl

theorem ai_outcome_absorb (ctx : Ctx) (b aw : Bool) (lmid : Option String)
    (subj snip : String) (hash0 : Option String) (tri : TriageRes) (h : String)
    (hout : ai_outcome ctx b aw lmid subj snip hash0 = some (tri, h)) :
    ai_outcome ctx b aw lmid subj snip (some h) = none := by
  simp only [ai_outcome] at hout ⊢
  by_cases hb : (b && aw) = true
  · rw [if_pos hb] at hout ⊢
    cases hbody : ai_body ctx lmid with
    | none => rw [hbody] at hout
    | some body =>
      rw [hbody] at hout
      have hout2 : ai_outcome_body ctx subj snip hash0 body = some (tri, h) := hout
      show ai_outcome_body ctx subj snip (some h) body = none
      simp only [ai_outcome_body] at hout2 ⊢
      by_cases hh : hash0 = some (ctx.content_hash subj snip (body.take 4000))
      · rw [if_pos hh] at hout2; exact absurd hout2 (by simp)
      · rw [if_neg hh] at hout2
        cases htri : ctx.triage_email subj snip (body.take 4000) with
        | none => rw [htri] at hout2; exact absurd hout2 (by simp)
        | some tri2 =>
          rw [htri] at hout2
          have hpair := Option.some.inj hout2
          have hh2 : ctx.content_hash subj snip (body.take 4000) = h :=
            congrArg Prod.snd hpair
          rw [if_pos (by rw [hh2])]
  · rw [if_neg hb] at hout
    exact absurd hout (by simp)

theorem set_updated_set_updated (a b : Int) (t : Ticket) :
    set_updated a (set_updated b t) = set_updated a t := rfl

theorem strip_set_updated (a : Int) (t : Ticket) :
    strip_updated (set_updated a t) = strip_updated t := rfl

/-- The whole ticket update ignores the previous `updated_at`. -/
theorem apply_ticket_updates_updated_irrel (ctx : Ctx) (aw at2 : Bool)
    (lmid : Option String) (subj snip : String) (ld : Option Int)
    (unread lfm : Bool) (fn fe : Option String) (now y : Int) (t : Ticket) :
    apply_ticket_updates ctx aw at2 lmid subj snip ld unread lfm fn fe now
        (set_updated y t) =
      apply_ticket_updates ctx aw at2 lmid subj snip ld unread lfm fn fe now t := by
  cases t
  rw [apply_ticket_updates_eq_explicit, apply_ticket_updates_eq_explicit]
  rfl

/-- Re-applying the ticket update at a later instant only refreshes
`updated_at`. -/
theorem apply_ticket_updates_idem (ctx : Ctx) (aw at2 : Bool)
    (lmid : Option String) (subj snip : String) (ld : Option Int)
    (unread lfm : Bool) (fn fe : Option String) (now1 now2 : Int) (t0 : Ticket) :
    apply_ticket_updates ctx aw at2 lmid subj snip ld unread lfm fn fe now2
        (apply_ticket_updates ctx aw at2 lmid subj snip ld unread lfm fn fe now1 t0) =
      set_updated now2
        (apply_ticket_updates ctx aw at2 lmid subj snip ld unread lfm fn fe now1 t0) := by
  rw [apply_ticket_updates_eq_explicit ctx aw at2 lmid subj snip ld unread lfm fn fe now1 t0]
  rw [apply_ticket_updates_eq_explicit]
  cases hout : ai_outcome ctx at2 aw lmid subj snip t0.ai_source_hash with
  | none =>
    simp only [apply_explicit, hout]
    simp only [default_priority_idem, reconcile_status_idem, set_updated]
    cases ld <;> rfl
  | some pr =>
    obtain ⟨tri, h⟩ := pr
    simp only [apply_explicit, hout]
    rw [ai_outcome_absorb ctx at2 aw lmid subj snip t0.ai_source_hash tri h hout]
    simp only [default_priority_idem, reconcile_status_idem, set_updated]
    cases ld <;> rfl

/-- A skip decision does not depend on the clock instant. -/
theorem upsert_decision_none_stable (ctx : Ctx) (bl : List String) (tid : String)
    (msgs : List RemoteMessage) (ao at2 : Bool) (t? : Option Ticket)
    (now1 now2 : Int)
    (h : upsert_decision ctx bl now1 tid msgs ao at2 t? = .ok none) :
    upsert_decision ctx bl now2 tid msgs ao at2 t? = .ok none := by
  cases hlm : msgs.getLast? with
  | none => simp only [upsert_decision, hlm]
  | some lm =>
    cases hld : last_dt_parse lm with
    | error e =>
      rw [show upsert_decision ctx bl now1 tid msgs ao at2 t? = .error e from by
        simp only [upsert_decision, hlm, hld]] at h
      exact absurd h (by simp)
    | ok ld =>
      cases hbl : blacklisted (from_pe ctx lm).2 bl with
      | true =>
        simp only [upsert_decision, hlm, hld]
        rw [show (parse_email_address ctx (get_header lm.headers "From")).2 =
          (from_pe ctx lm).2 from rfl, hbl]
        simp
      | false =>
        cases hsk : (t?.isNone && ao && !(awaiting_reply ctx msgs)) with
        | true =>
          simp only [upsert_decision, hlm, hld]
          rw [show (parse_email_address ctx (get_header lm.headers "From")).2 =
            (from_pe ctx lm).2 from rfl, hbl, hsk]
          simp
        | false =>
          rw [show upsert_decision ctx bl now1 tid msgs ao at2 t? =
              .ok (some (built_ticket ctx now1 tid msgs at2 lm ld t?)) from by
            simp only [upsert_decision, hlm, hld]
            rw [show (parse_email_address ctx (get_header lm.headers "From")).2 =
              (from_pe ctx lm).2 from rfl, hbl, hsk]
            simp only [Bool.false_eq_true, if_false]
            rfl] at h
          exact absurd h (by simp)

/-- The previous `updated_at` value never influences the decision. -/
theorem upsert_decision_updated_irrel (ctx : Ctx) (bl : List String) (now : Int)
    (tid : String) (msgs : List RemoteMessage) (ao at2 : Bool) (t : Ticket)
    (y : Int) :
    upsert_decision ctx bl now tid msgs ao at2 (some (set_updated y t)) =
      upsert_decision ctx bl now tid msgs ao at2 (some t) := by
  cases hlm : msgs.getLast? with
  | none => simp only [upsert_decision, hlm]
  | some lm =>
    cases hld : last_dt_parse lm with
    | error e => simp only [upsert_decision, hlm, hld]
    | ok ld =>
      simp only [upsert_decision, hlm, hld, Option.isNone_some, Bool.false_and,
        Bool.false_eq_true, if_false, Option.getD_some]
      cases hbl : blacklisted (parse_email_address ctx (get_header lm.headers "From")).2 bl with
      | true => rfl
      | false =>
        rw [apply_ticket_updates_updated_irrel]

/-- Re-reconciling a just-reconciled ticket against the same thread yields the
same row with only `updated_at` refreshed. -/
theorem upsert_decision_idem (ctx : Ctx) (bl : List String) (tid : String)
    (msgs : List RemoteMessage) (ao at2 : Bool) (t? : Option Ticket)
    (now1 now2 : Int) (t1 : Ticket)
    (h : upsert_decision ctx bl now1 tid msgs ao at2 t? = .ok (some t1)) :
    upsert_decision ctx bl now2 tid msgs ao at2 (some t1) =
      .ok (some (set_updated now2 t1)) := by
  rcases upsert_decision_cases ctx bl now1 tid msgs ao at2 t? with
    ⟨h1, hv⟩ | ⟨lm, h1, h2, hv⟩ | ⟨lm, ld, h1, h2, h3, hv⟩ |
    ⟨lm, ld, h1, h2, h3, h4, hv⟩ | ⟨lm, ld, h1, h2, h3, h4, hv⟩
  · rw [hv] at h; exact absurd h (by simp)
  · rw [hv] at h; exact absurd h (by simp)
  · rw [hv] at h; exact absurd h (by simp)
  · rw [hv] at h; exact absurd h (by simp)
  · rw [hv] at h
    have ht1 := Option.some.inj (Except.ok.inj h)
    simp only [upsert_decision, h1, h2, Option.isNone_some, Bool.false_and,
      Bool.false_eq_true, if_false, Option.getD_some]
    rw [show (parse_email_address ctx (get_header lm.headers "From")).2 =
      (from_pe ctx lm).2 from rfl, h3]
    simp only [Bool.false_eq_true, if_false]
    rw [← ht1]
    simp only [built_ticket, from_pe, subject_of, snippet_of]
    rw [apply_ticket_updates_idem]

/-- A staged ticket map update touches only its own thread id. -/
theorem upsert_tm_frame (ctx : Ctx) (bl : List String) (now : Int)
    (msgs : List RemoteMessage) (tid : String) (ao at2 : Bool) (tm : TicketMap)
    (b : Bool) (tmn : TicketMap)
    (hup : upsert_ticket_from_thread ctx bl now msgs tid ao at2 tm = .ok (b, tmn)) :
    ∀ k, k ≠ tid → tmn k = tm k := by
  simp only [upsert_ticket_from_thread] at hup
  cases hdec : upsert_decision ctx bl now tid msgs ao at2 (tm tid) with
  | error e => rw [hdec] at hup; exact absurd hup (by simp)
  | ok o =>
    rw [hdec] at hup
    cases o with
    | none =>
      have h2 : tm = tmn := congrArg Prod.snd (Except.ok.inj hup)
      intro k _
      rw [← h2]
    | some t =>
      have h2 : (fun k => if k = tid then some t else tm k) = tmn :=
        congrArg Prod.snd (Except.ok.inj hup)
      intro k hk
      rw [← h2]
      simp [hk]

/-- The per-thread loop writes only the keys it visits. -/
theorem run_loop_frame (ctx : Ctx) (remote : Remote) (bl : List String)
    (now : Int) (ao at2 : Bool) :
    ∀ (L : List String) (up sk : Nat) (tm : TicketMap) (u s : Nat) (tm2 : TicketMap),
      run_loop ctx remote bl now ao at2 L up sk tm = some (u, s, tm2) →
      ∀ k, k ∉ L → tm2 k = tm k := by
  intro L
  induction L with
  | nil =>
    intro up sk tm u s tm2 h k _
    simp only [run_loop, Option.some.injEq] at h
    have h2 : tm = tm2 := congrArg (fun p => p.2.2) h
    rw [← h2]
  | cons tid rest ih =>
    intro up sk tm u s tm2 h k hk
    have hk1 : k ≠ tid := fun he => hk (he ▸ List.mem_cons_self _ _)
    have hk2 : k ∉ rest := fun hr => hk (List.mem_cons.mpr (Or.inr hr))
    simp only [run_loop] at h
    cases hth : remote.thread tid with
    | httpErr =>
      rw [hth] at h
      exact ih _ _ _ _ _ _ h k hk2
    | fatal => rw [hth] at h; exact absurd h (by simp)
    | ok msgs =>
      rw [hth] at h
      have h' : (match upsert_ticket_from_thread ctx bl now msgs tid ao at2 tm with
          | Except.error _ => none
          | Except.ok (true, tmx) => run_loop ctx remote bl now ao at2 rest (up + 1) sk tmx
          | Except.ok (false, tmx) => run_loop ctx remote bl now ao at2 rest up (sk + 1) tmx) =
          some (u, s, tm2) := h
      cases hup : upsert_ticket_from_thread ctx bl now msgs tid ao at2 tm with
      | error e => rw [hup] at h'; exact absurd h' (by simp)
      | ok pair =>
        obtain ⟨b, tmn⟩ := pair
        rw [hup] at h'
        have hframe := upsert_tm_frame ctx bl now msgs tid ao at2 tm b tmn hup
        cases b with
        | true => rw [ih _ _ _ _ _ _ h' k hk2]; exact hframe k hk1
        | false => rw [ih _ _ _ _ _ _ h' k hk2]; exact hframe k hk1

/-- A thread id is in a stable state for value `v` stored under it:
re-deciding it at any instant either skips, or rebuilds the stored row with
only `updated_at` refreshed (or the fetch is a caught `HttpError`). -/
def TidFix (ctx : Ctx) (remote : Remote) (bl : List String) (ao at2 : Bool)
    (tid : String) (v : Option Ticket) : Prop :=
  match remote.thread tid with
  | .fatal => False
  | .httpErr => True
  | .ok msgs =>
    (∀ now, upsert_decision ctx bl now tid msgs ao at2 v = .ok none) ∨
    (∃ t, v = some t ∧
      ∀ now, upsert_decision ctx bl now tid msgs ao at2 v =
        .ok (some (set_updated now t)))

theorem run_loop_establishes_fix (ctx : Ctx) (remote : Remote) (bl : List String)
    (now : Int) (ao at2 : Bool) :
    ∀ (L : List String) (up sk : Nat) (tm : TicketMap) (u s : Nat) (tmF : TicketMap),
      run_loop ctx remote bl now ao at2 L up sk tm = some (u, s, tmF) →
      ∀ tid ∈ L, TidFix ctx remote bl ao at2 tid (tmF tid) := by
  intro L
  induction L with
  | nil => intro up sk tm u s tmF _ tid htid; exact absurd htid (List.not_mem_nil _)
  | cons tid0 rest ih =>
    intro up sk tm u s tmF h tid htid
    simp only [run_loop] at h
    cases hth : remote.thread tid0 with
    | fatal => rw [hth] at h; exact absurd h (by simp)
    | httpErr =>
      rw [hth] at h
      rcases List.mem_cons.mp htid with rfl | hmem
      · simp only [TidFix]
        rw [hth]
        trivial
      · exact ih _ _ _ _ _ _ h tid hmem
    | ok msgs =>
      rw [hth] at h
      have h' : (match upsert_ticket_from_thread ctx bl now msgs tid0 ao at2 tm with
          | Except.error _ => none
          | Except.ok (true, tmx) => run_loop ctx remote bl now ao at2 rest (up + 1) sk tmx
          | Except.ok (false, tmx) => run_loop ctx remote bl now ao at2 rest up (sk + 1) tmx) =
          some (u, s, tmF) := h
      cases hup : upsert_ticket_from_thread ctx bl now msgs tid0 ao at2 tm with
      | error e => rw [hup] at h'; exact absurd h' (by simp)
      | ok pair =>
        obtain ⟨b, tmn⟩ := pair
        rw [hup] at h'
        have hrec : run_loop ctx remote bl now ao at2 rest
            (if b then up + 1 else up) (if b then sk else sk + 1) tmn =
            some (u, s, tmF) := by
          cases b with
          | true => exact h'
          | false => exact h'
        rcases List.mem_cons.mp htid with heq | hmem
        · subst heq
          by_cases hmem2 : tid ∈ rest
          · exact ih _ _ _ _ _ _ hrec tid hmem2
          · have hframe : tmF tid = tmn tid :=
              run_loop_frame ctx remote bl now ao at2 rest _ _ _ _ _ _ hrec tid hmem2
            simp only [TidFix]
            rw [hth, hframe]
            simp only [upsert_ticket_from_thread] at hup
            cases hdec : upsert_decision ctx bl now tid msgs ao at2 (tm tid) with
            | error e => rw [hdec] at hup; exact absurd hup (by simp)
            | ok o =>
              rw [hdec] at hup
              cases o with
              | none =>
                have htmn : tm = tmn := congrArg Prod.snd (Except.ok.inj hup)
                rw [← htmn]
                exact Or.inl (fun now2 =>
                  upsert_decision_none_stable ctx bl tid msgs ao at2 (tm tid) now now2 hdec)
              | some t =>
                have htmn : (fun k => if k = tid then some t else tm k) = tmn :=
                  congrArg Prod.snd (Except.ok.inj hup)
                have htid0 : tmn tid = some t := by rw [← htmn]; simp
                rw [htid0]
                refine Or.inr ⟨t, rfl, ?_⟩
                intro now2
                exact upsert_decision_idem ctx bl tid msgs ao at2 (tm tid) now now2 t hdec
        · exact ih _ _ _ _ _ _ hrec tid hmem

theorem run_loop_on_fix (ctx : Ctx) (remote : Remote) (bl : List String)
    (now2 : Int) (ao at2 : Bool) :
    ∀ (L : List String) (up sk : Nat) (tm : TicketMap),
      (∀ tid ∈ L, TidFix ctx remote bl ao at2 tid (tm tid)) →
      ∃ u s tm2, run_loop ctx remote bl now2 ao at2 L up sk tm = some (u, s, tm2) ∧
        ∀ k, (tm2 k).map strip_updated = (tm k).map strip_updated := by
  intro L
  induction L with
  | nil => intro up sk tm _; exact ⟨up, sk, tm, rfl, fun k => rfl⟩
  | cons tid rest ih =>
    intro up sk tm hp
    have hp0 := hp tid (List.mem_cons_self _ _)
    simp only [run_loop]
    cases hth : remote.thread tid with
    | fatal =>
      exfalso
      simp only [TidFix] at hp0
      rw [hth] at hp0
      exact hp0
    | httpErr =>
      obtain ⟨u, s, tm2, hrun, hstrip⟩ :=
        ih up (sk + 1) tm (fun t2 ht => hp t2 (List.mem_cons.mpr (Or.inr ht)))
      exact ⟨u, s, tm2, hrun, hstrip⟩
    | ok msgs =>
      have hp0' : (∀ now, upsert_decision ctx bl now tid msgs ao at2 (tm tid) = .ok none) ∨
          (∃ t, tm tid = some t ∧
            ∀ now, upsert_decision ctx bl now tid msgs ao at2 (tm tid) =
              .ok (some (set_updated now t))) := by
        have h0 := hp0
        simp only [TidFix] at h0
        rw [hth] at h0
        exact h0
      rcases hp0' with hnone | ⟨t, htid, hfix⟩
      · have hup : upsert_ticket_from_thread ctx bl now2 msgs tid ao at2 tm =
            .ok (false, tm) := by
          simp only [upsert_ticket_from_thread]
          rw [hnone now2]
        obtain ⟨u, s, tm2, hrun, hstrip⟩ :=
          ih up (sk + 1) tm (fun t2 ht => hp t2 (List.mem_cons.mpr (Or.inr ht)))
        refine ⟨u, s, tm2, ?_, hstrip⟩
        show (match upsert_ticket_from_thread ctx bl now2 msgs tid ao at2 tm with
          | Except.error _ => none
          | Except.ok (true, tmx) => run_loop ctx remote bl now2 ao at2 rest (up + 1) sk tmx
          | Except.ok (false, tmx) => run_loop ctx remote bl now2 ao at2 rest up (sk + 1) tmx) =
          some (u, s, tm2)
        rw [hup]
        exact hrun
      · have hdec2 : upsert_decision ctx bl now2 tid msgs ao at2 (tm tid) =
            .ok (some (set_updated now2 t)) := hfix now2
        have hup : upsert_ticket_from_thread ctx bl now2 msgs tid ao at2 tm =
            .ok (true, fun k => if k = tid then some (set_updated now2 t) else tm k) := by
          simp only [upsert_ticket_from_thread]
          rw [hdec2]
        have hfix2 : ∀ now3, upsert_decision ctx bl now3 tid msgs ao at2
            (some (set_updated now2 t)) = .ok (some (set_updated now3 (set_updated now2 t))) := by
          intro now3
          rw [upsert_decision_updated_irrel, set_updated_set_updated]
          have h3 := hfix now3
          rw [htid] at h3
          exact h3
        have hpn : ∀ t2 ∈ rest, TidFix ctx remote bl ao at2 t2
            ((fun k => if k = tid then some (set_updated now2 t) else tm k) t2) := by
          intro t2 ht2
          by_cases he : t2 = tid
          · have hval : ((fun k => if k = tid then some (set_updated now2 t) else tm k) t2) =
                some (set_updated now2 t) := by simp [he]
            rw [hval]
            subst he
            simp only [TidFix]
            rw [hth]
            exact Or.inr ⟨set_updated now2 t, rfl, hfix2⟩
          · have hval : ((fun k => if k = tid then some (set_updated now2 t) else tm k) t2) =
                tm t2 := by simp [he]
            rw [hval]
            exact hp t2 (List.mem_cons.mpr (Or.inr ht2))
        obtain ⟨u, s, tm2, hrun, hstrip⟩ := ih (up + 1) sk _ hpn
        refine ⟨u, s, tm2, ?_, ?_⟩
        · show (match upsert_ticket_from_thread ctx bl now2 msgs tid ao at2 tm with
            | Except.error _ => none
            | Except.ok (true, tmx) => run_loop ctx remote bl now2 ao at2 rest (up + 1) sk tmx
            | Except.ok (false, tmx) => run_loop ctx remote bl now2 ao at2 rest up (sk + 1) tmx) =
            some (u, s, tm2)
          rw [hup]
          exact hrun
        · intro k
          rw [hstrip k]
          by_cases hk : k = tid
          · subst hk
            simp [htid, strip_set_updated]
          · simp [hk]

/-- C7 (amended).  Running a range-mode `sync_inbox_threads` twice in a row
against an unchanged remote yields, after the second run, a Ticket store that
agrees with the first run's on every row up to the `updated_at` bookkeeping
timestamp (which the reconciler unconditionally stamps with the current
instant, so it does drift across runs — see the counterexample); there are no
duplicate rows (the store is keyed by thread id by construction), the second
run returns a summary (no fatal error), and the watermark store and blacklist
are untouched. -/
theorem sync_idempotence (ctx : Ctx) (remote : Remote) (flags : SyncFlags)
    (db0 : Db) (now1 now2 : Int) (s1 : RunSummary) (db1 : Db)
    (hrange : (!(opt_falsy flags.startDate) || !(opt_falsy flags.endDate)) = true)
    (h1 : sync_inbox_threads ctx remote now1 flags db0 = .ret (.summary s1) db1) :
    ∃ s2 db2, sync_inbox_threads ctx remote now2 flags db1 = .ret (.summary s2) db2 ∧
      (∀ k, (db2.tickets k).map strip_updated = (db1.tickets k).map strip_updated) ∧
      db2.app_state = db1.app_state ∧
      db2.blacklist = db1.blacklist := by
  have hfalse : (opt_falsy flags.startDate && opt_falsy flags.endDate) = false := by
    cases ha : opt_falsy flags.startDate with
    | false => simp
    | true =>
      cases hb : opt_falsy flags.endDate with
      | false => simp
      | true => rw [ha, hb] at hrange; exact absurd hrange (by simp)
  cases hg : remote.gateway_error with
  | some msg =>
    rw [show sync_inbox_threads ctx remote now1 flags db0 = .ret (.authFail msg) db0 from by
      simp only [sync_inbox_threads, hg]] at h1
    exact absurd h1 (by simp)
  | none =>
    have hsel0 : select_thread_ids ctx remote flags db0 (norm_history_id remote) =
        some ((list_thread_ids_in_range ctx remote flags.startDate flags.endDate
          flags.max_threads flags.include_anywhere).1, false,
          (list_thread_ids_in_range ctx remote flags.startDate flags.endDate
          flags.max_threads flags.include_anywhere).2) := by
      simp only [select_thread_ids]
      rw [if_pos hrange]
    cases hloop : run_loop ctx remote db0.blacklist now1 flags.awaiting_only
        flags.auto_triage (list_thread_ids_in_range ctx remote flags.startDate
          flags.endDate flags.max_threads flags.include_anywhere).1 0 0 db0.tickets with
    | none =>
      rw [show sync_inbox_threads ctx remote now1 flags db0 = .fatal db0 from by
        simp only [sync_inbox_threads, hg, hsel0, hloop]] at h1
      exact absurd h1 (by simp)
    | some triple =>
      obtain ⟨up, sk, tmF⟩ := triple
      rw [show sync_inbox_threads ctx remote now1 flags db0 =
          .ret (.summary
            { ok := true
              threads_requested := (list_thread_ids_in_range ctx remote flags.startDate
                flags.endDate flags.max_threads flags.include_anywhere).1.length
              upserted := up
              skipped := sk
              mode := if false then "history"
                else if !(opt_falsy flags.startDate) || !(opt_falsy flags.endDate) then "range"
                else "recent"
              watermark := norm_history_id remote
              hit_limit := (list_thread_ids_in_range ctx remote flags.startDate
                flags.endDate flags.max_threads flags.include_anywhere).2
              target_mailbox := ctx.target_mailbox
              include_anywhere := flags.include_anywhere
              awaiting_only := flags.awaiting_only
              auto_triage := flags.auto_triage })
            { db0 with
              tickets := tmF
              app_state :=
                if opt_falsy flags.startDate && opt_falsy flags.endDate then
                  match norm_history_id remote with
                  | some v => set_state db0.app_state "gmail_history_id" v
                  | none => db0.app_state
                else db0.app_state } from by
        simp only [sync_inbox_threads, hg, hsel0, hloop]] at h1
      injection h1 with hr hdb
      have hfixall := run_loop_establishes_fix ctx remote db0.blacklist now1
        flags.awaiting_only flags.auto_triage _ 0 0 db0.tickets up sk tmF hloop
      obtain ⟨u2, s2c, tm2, hrun2, hstrip⟩ := run_loop_on_fix ctx remote
        db0.blacklist now2 flags.awaiting_only flags.auto_triage
        (list_thread_ids_in_range ctx remote flags.startDate flags.endDate
          flags.max_threads flags.include_anywhere).1 0 0 tmF hfixall
      have hsel1 : select_thread_ids ctx remote flags db1 (norm_history_id remote) =
          some ((list_thread_ids_in_range ctx remote flags.startDate flags.endDate
            flags.max_threads flags.include_anywhere).1, false,
            (list_thread_ids_in_range ctx remote flags.startDate flags.endDate
            flags.max_threads flags.include_anywhere).2) := by
        simp only [select_thread_ids]
        rw [if_pos hrange]
      have hloop2 : run_loop ctx remote db1.blacklist now2 flags.awaiting_only
          flags.auto_triage (list_thread_ids_in_range ctx remote flags.startDate
            flags.endDate flags.max_threads flags.include_anywhere).1 0 0 db1.tickets =
          some (u2, s2c, tm2) := by
        rw [← hdb]
        exact hrun2
      refine ⟨
        { ok := true
          threads_requested := (list_thread_ids_in_range ctx remote flags.startDate
            flags.endDate flags.max_threads flags.include_anywhere).1.length
          upserted := u2
          skipped := s2c
          mode := if false then "history"
            else if !(opt_falsy flags.startDate) || !(opt_falsy flags.endDate) then "range"
            else "recent"
          watermark := norm_history_id remote
          hit_limit := (list_thread_ids_in_range ctx remote flags.startDate
            flags.endDate flags.max_threads flags.include_anywhere).2
          target_mailbox := ctx.target_mailbox
          include_anywhere := flags.include_anywhere
          awaiting_only := flags.awaiting_only
          auto_triage := flags.auto_triage },
        { db1 with
          tickets := tm2
          app_state :=
            if opt_falsy flags.startDate && opt_falsy flags.endDate then
              match norm_history_id remote with
              | some v => set_state db1.app_state "gmail_history_id" v
              | none => db1.app_state
            else db1.app_state }, ?_, ?_, ?_, ?_⟩
      · simp only [sync_inbox_threads, hg, hsel1, hloop2]
      · intro k
        show (tm2 k).map strip_updated = (db1.tickets k).map strip_updated
        rw [hstrip k, ← hdb]
      · show (if opt_falsy flags.startDate && opt_falsy flags.endDate then _ else db1.app_state) =
          db1.app_state
        rw [hfalse]
        simp
      · rfl

def remote7W : Remote :=
  { gateway_error := none
    history_id := some "7"
    history := fun _ => .ok []
    listQ := fun _ _ => ["t1"]
    thread := fun _ => .ok [msgInW] }

/-- Counterexample for C7 as stated: two back-to-back range-mode runs over an
unchanged remote leave different Ticket rows — the second run restamps
`updated_at` (a Ticket column) with the later instant, so the stored row does
drift between the runs even though no remote activity happened. -/
theorem sync_idempotence_counterexample :
    ((sync_db (sync_inbox_threads ctxW remote7W 1 flagsRangeW
        (sync_db (sync_inbox_threads ctxW remote7W 0 flagsRangeW dbW)))).tickets "t1" ≠
      (sync_db (sync_inbox_threads ctxW remote7W 0 flagsRangeW dbW)).tickets "t1") ∧
    ((sync_db (sync_inbox_threads ctxW remote7W 1 flagsRangeW
        (sync_db (sync_inbox_threads ctxW remote7W 0 flagsRangeW dbW)))).tickets "t1").map
        Ticket.updated_at = some (some 1) ∧
    ((sync_db (sync_inbox_threads ctxW remote7W 0 flagsRangeW dbW)).tickets "t1").map
        Ticket.updated_at = some (some 0) :=
  ⟨by decide, by decide, by decide⟩

/-- Witness for C7 (amended) at a concrete input: the second run of the same
range sync returns a summary and changes no ticket except its `updated_at`. -/
theorem sync_idempotence_witness :
    ∃ s2 db2, sync_inbox_threads ctxW remote7W 1 flagsRangeW
        (sync_db (sync_inbox_threads ctxW remote7W 0 flagsRangeW dbW)) =
        .ret (.summary s2) db2 ∧
      (∀ k, (db2.tickets k).map strip_updated =
        ((sync_db (sync_inbox_threads ctxW remote7W 0 flagsRangeW dbW)).tickets k).map
          strip_updated) ∧
      db2.app_state = (sync_db (sync_inbox_threads ctxW remote7W 0 flagsRangeW dbW)).app_state ∧
      db2.blacklist = (sync_db (sync_inbox_threads ctxW remote7W 0 flagsRangeW dbW)).blacklist :=
  sync_idempotence ctxW remote7W flagsRangeW dbW 0 1
    ((sync_summary (sync_inbox_threads ctxW remote7W 0 flagsRangeW dbW)).getD default)
    (sync_db (sync_inbox_threads ctxW remote7W 0 flagsRangeW dbW))
    (by decide)
    (by rfl)
